import Mathlib

/-!
Verification development for the CurrentFlow energy-analytics pipeline
(`src/data/preprocessor.py`, `src/data/loaders.py`,
`src/weather_utils/process_weather.py`, `src/utils/config.py`,
`scripts/update_features.py`).

The pandas `DataFrame`s of the source are shallowly embedded as lists of
association-list rows together with an explicit column-label list.  Scalar
cell values are embedded as the inductive type `Val`:

* numeric cells become exact rationals (`Val.num`);
* pandas `NaN`/`NaT` (missing data) becomes `Val.nan`; following pandas,
  every ordered comparison against `Val.nan` is `false`, statistics skip
  `nan` operands (`skipna=True`), and `nan == nan` holds for join,
  duplicate and grouping keys (pandas matches missing keys there);
* timestamps become `Val.ts day hour` and calendar dates `Val.date day`,
  where `day` is the number of days since 1970-01-01;
* the per-region load Z-score `(x - mean)/std` produced by
  `engineer_features` is an irrational real in general, so its cell is
  embedded symbolically as `Val.zsc x mean var` denoting
  `(x - mean) / Real.sqrt var`; the one consumer in the source,
  `np.abs(z) > 2.5`, is evaluated through the exact equivalence
  `|x - mean|/sqrt var > t ↔ 0 < var ∧ t^2 * var < (x - mean)^2`
  (for `t > 0`), so no real-number computation is ever needed.
-/

/- Batteries marks the `Rat` field operations `@[irreducible]`, which
blocks `decide`-style evaluation of the executable embedding on concrete
inputs.  Restoring the default reducibility is purely an elaboration
hint: it does not change any definition, the kernel ignores reducibility
attributes, and no axiom is involved. -/
set_option allowUnsafeReducibility true
attribute [semireducible] Rat.add Rat.mul Rat.sub Rat.div Rat.neg Rat.inv Rat.blt

namespace CurrentFlow

/-- Calendar day, encoded as days since the epoch 1970-01-01. -/
abbrev Day := ℤ

/-- An embedded pandas scalar cell. -/
inductive Val where
  /-- a (finite) numeric value -/
  | num (q : ℚ)
  /-- a string value -/
  | str (s : String)
  /-- a calendar date (a Python `datetime.date` / midnight `Timestamp`) -/
  | date (d : Day)
  /-- a timestamp with an hour-of-day component -/
  | ts (d : Day) (h : ℕ)
  /-- symbolic per-region Z-score `(x - mean) / Real.sqrt var` -/
  | zsc (x mean var : ℚ)
  /-- missing data: pandas `NaN` / `NaT` -/
  | nan
deriving DecidableEq, Repr

/-- Extract the rational of a numeric cell; `none` on everything else
(in particular on `nan`, mirroring `skipna` statistics). -/
def Val.toQ : Val → Option ℚ
  | .num q => some q
  | _ => none

/-- Is this cell missing data? -/
def Val.isNan : Val → Bool
  | .nan => true
  | _ => false

/-- Ordered comparison `≤` between cells, as pandas evaluates it on
homogeneous date columns; any comparison involving missing or
non-comparable data is `false`. -/
def Val.dle : Val → Val → Bool
  | .date a, .date b => a ≤ b
  | .ts a ha, .ts b hb => a < b || (a = b && ha ≤ hb)
  | .num a, .num b => a ≤ b
  | .str a, .str b => a ≤ b
  | _, _ => false

/-- A row: an association list from column label to cell. -/
abbrev Row := List (String × Val)

/-- Read a cell; a label absent from the row reads as missing data. -/
def getV (r : Row) (c : String) : Val := (r.lookup c).getD .nan

/-- Write a cell: replace the value at an existing label, or append the
label (pandas `df[c] = v` appends new columns at the end).  Rows built in
this development never carry duplicate labels, so replacing the first
occurrence coincides with pandas' relabelling of the column. -/
def setF : Row → String → Val → Row
  | [], c, v => [(c, v)]
  | (a, b) :: r, c, v =>
    if a = c then (c, v) :: r else (a, b) :: setF r c v

/-- An embedded `DataFrame`: ordered column labels plus rows. -/
structure Frame where
  cols : List String
  rows : List Row
deriving DecidableEq, Repr

/-- Append a column label if it is not already present. -/
def addCol (cs : List String) (c : String) : List String :=
  if c ∈ cs then cs else cs ++ [c]

/-- The mean of a list of rationals (`0` on the empty list, which never
feeds a claim: callers guard emptiness first). -/
def qMean (l : List ℚ) : ℚ := l.sum / l.length

/-- Sample variance with `ddof = 1`, the square of pandas `Series.std`:
`Σ (x - mean)² / (n - 1)`.  By Lean's `x / 0 = 0` convention this is `0`
when `n ≤ 1`, the case where pandas yields `NaN`; every consumer in this
development treats `var = 0` and pandas' `NaN` std identically (both make
the Z-score `NaN`), so the two encodings agree observably. -/
def sampleVar (l : List ℚ) : ℚ :=
  (l.map fun x => (x - qMean l) ^ 2).sum / ((l.length : ℚ) - 1)

/-- The last at most `n` elements of a list (a trailing window). -/
def lastN (n : ℕ) (l : List α) : List α := l.drop (l.length - n)

/-- Mean of the numeric entries of a window of cells, as pandas
`rolling(...).mean()` evaluates one window with `skipna`: `NaN` when no
entry is numeric. -/
def windowMean (vs : List Val) : Val :=
  let nums := vs.filterMap Val.toQ
  if nums.isEmpty then .nan else .num (qMean nums)

@[simp] theorem getV_nil (c : String) : getV [] c = .nan := rfl

/-- Writing one column does not disturb reads of another. -/
theorem getV_setF_ne (r : Row) (c c' : String) (v : Val) (h : c' ≠ c) :
    getV (setF r c v) c' = getV r c' := by
  induction r with
  | nil =>
    have h0 : (c' == c) = false := by
      rw [beq_eq_false_iff_ne]
      exact h
    simp [setF, getV, List.lookup, h0]
  | cons p r ih =>
    obtain ⟨a, b⟩ := p
    by_cases hp : a = c
    · subst hp
      have h1 : (c' == a) = false := by
        rw [beq_eq_false_iff_ne]
        exact h
      simp [setF, getV, List.lookup, h1]
    · by_cases hc : c' = a
      · subst hc
        simp [setF, getV, List.lookup, hp]
      · have h1 : (c' == a) = false := by
          rw [beq_eq_false_iff_ne]
          exact hc
        simp only [setF, if_neg hp, getV, List.lookup, h1] at ih ⊢
        exact ih

/-- Reading the column just written returns the written value. -/
theorem getV_setF_same (r : Row) (c : String) (v : Val) :
    getV (setF r c v) c = v := by
  induction r with
  | nil => simp [setF, getV, List.lookup]
  | cons p r ih =>
    obtain ⟨a, b⟩ := p
    by_cases hp : a = c
    · subst hp
      simp [setF, getV, List.lookup]
    · have h1 : (c == a) = false := by
        rw [beq_eq_false_iff_ne]
        exact fun hh => hp hh.symm
      simp only [setF, if_neg hp, getV, List.lookup, h1] at ih ⊢
      exact ih

/-! ## `Preprocessor.clean_ons_data` (src/data/preprocessor.py lines 41-84) -/

/-- Line 64: `clean_df.dropna(subset=['din_instante',
'val_cargaenergiamwmed', 'nom_subsistema'])` — drop every row missing one
of the three critical columns. -/
def dropnaCritical (df : Frame) : Frame :=
  { cols := df.cols
    rows := df.rows.filter fun r =>
      !(getV r "din_instante").isNan &&
      !(getV r "val_cargaenergiamwmed").isNan &&
      !(getV r "nom_subsistema").isNan }

/-- Key of line 67's `drop_duplicates(subset=['din_instante',
'nom_subsistema'])`. -/
def onsDupKey (r : Row) : Val × Val :=
  (getV r "din_instante", getV r "nom_subsistema")

/-- Keep the first occurrence of every key (pandas `keep='first'`). -/
def dedupFirst : List Row → List (Val × Val) → List Row
  | [], _ => []
  | r :: rs, seen =>
    if onsDupKey r ∈ seen then dedupFirst rs seen
    else r :: dedupFirst rs (onsDupKey r :: seen)

/-- Line 67: `clean_df.drop_duplicates(subset=['din_instante',
'nom_subsistema'])`. -/
def dropDuplicatesOns (df : Frame) : Frame :=
  { cols := df.cols, rows := dedupFirst df.rows [] }

/-- The boolean mask of lines 69-74:
`np.abs((x - mean) / std) <= 3` for one load cell, where `mean`/`std` are
taken over the whole column (`nums`, with `skipna`).  For `std > 0` this
is exactly `0 < var ∧ (x - mean)² ≤ 9·var`; when the load is `NaN`, when
`std` is `NaN` (column with ≤ 1 numeric value) or when `std = 0`
(constant column, `0/0 = NaN`), the pandas comparison `NaN <= 3` is
`False` and the row is dropped — encoded by the `0 < sampleVar` guard
(`sampleVar = 0` in both degenerate cases). -/
def zKeepOns (nums : List ℚ) (v : Val) : Bool :=
  match v.toQ with
  | none => false
  | some q =>
    decide (0 < sampleVar nums) &&
    decide ((q - qMean nums) ^ 2 ≤ 9 * sampleVar nums)

/-- Lines 69-74: compute the global Z-score of
`val_cargaenergiamwmed` and keep only rows with `|z| ≤ 3`. -/
def zscoreFilterOns (df : Frame) : Frame :=
  let nums := (df.rows.map fun r => getV r "val_cargaenergiamwmed").filterMap Val.toQ
  { cols := df.cols
    rows := df.rows.filter fun r => zKeepOns nums (getV r "val_cargaenergiamwmed") }

/-- `pd.to_datetime` on one cell.  Values that are already datetimes are
unchanged; this development only models already-parsed datetime inputs
(the claims never exercise string-to-date parsing), so anything else
degrades to missing data. -/
def toDatetimeV : Val → Val
  | .date d => .date d
  | .ts d h => .ts d h
  | _ => .nan

/-- `pd.api.types.is_datetime64_any_dtype`: the column is a datetime
column. -/
def isDatetimeCol (df : Frame) (c : String) : Bool :=
  df.rows.all fun r =>
    match getV r c with
    | .date _ => true
    | .ts _ _ => true
    | _ => false

/-- Lines 77-78: `if not is_datetime64_any_dtype(...):
clean_df['din_instante'] = pd.to_datetime(clean_df['din_instante'])`. -/
def ensureDatetimeOns (df : Frame) : Frame :=
  if isDatetimeCol df "din_instante" then df
  else
    { cols := df.cols
      rows := df.rows.map fun r =>
        setF r "din_instante" (toDatetimeV (getV r "din_instante")) }

/-- `Preprocessor.clean_ons_data` (lines 41-84): dropna on the critical
columns, dedupe on `(din_instante, nom_subsistema)`, global Z-score
outlier filter, datetime coercion. -/
def cleanOnsData (df : Frame) : Frame :=
  ensureDatetimeOns (zscoreFilterOns (dropDuplicatesOns (dropnaCritical df)))

/-! ## Calendar helpers (pandas `.dt` accessors) -/

/-- Convert an epoch day number to `(year, month, day)` of the
proleptic Gregorian calendar (the standard civil-from-days algorithm,
as used by `datetime`/pandas timestamps). -/
def civilFromDays (z0 : Day) : ℤ × ℤ × ℤ :=
  let z := z0 + 719468
  let era : ℤ := Int.fdiv z 146097
  let doe : ℤ := z - era * 146097
  let yoe : ℤ := (doe - doe / 1460 + doe / 36524 - doe / 146096) / 365
  let y : ℤ := yoe + era * 400
  let doy : ℤ := doe - (365 * yoe + yoe / 4 - yoe / 100)
  let mp : ℤ := (5 * doy + 2) / 153
  let d : ℤ := doy - (153 * mp + 2) / 5 + 1
  let m : ℤ := mp + (if mp < 10 then 3 else -9)
  (if m ≤ 2 then y + 1 else y, m, d)

/-- `.dt.dayofweek` (Monday = 0; epoch day 0, 1970-01-01, was a
Thursday = 3). -/
def dowVal : Val → Val
  | .date d => .num (((d + 3) % 7 : ℤ) : ℚ)
  | .ts d _ => .num (((d + 3) % 7 : ℤ) : ℚ)
  | _ => .nan

/-- `.dt.month`. -/
def monthVal : Val → Val
  | .date d => .num ((civilFromDays d).2.1 : ℚ)
  | .ts d _ => .num ((civilFromDays d).2.1 : ℚ)
  | _ => .nan

/-- `.dt.year`. -/
def yearVal : Val → Val
  | .date d => .num ((civilFromDays d).1 : ℚ)
  | .ts d _ => .num ((civilFromDays d).1 : ℚ)
  | _ => .nan

/-- `.dt.date`: truncate a timestamp to its calendar date. -/
def dtDateV : Val → Val
  | .date d => .date d
  | .ts d _ => .date d
  | _ => .nan

/-! ## `Preprocessor.aggregate_inmet_by_region`
(src/data/preprocessor.py lines 86-143) -/

/-- The INMET hourly temperature column label. -/
def tempCol : String := "TEMPERATURA DO AR - BULBO SECO, HORARIA (°C)"

/-- The INMET hourly global-radiation column label. -/
def radiationCol : String := "RADIACAO GLOBAL (Kj/m²)"

/-- The INMET hourly precipitation column label. -/
def precipCol : String := "PRECIPITAÇÃO TOTAL, HORÁRIO (mm)"

/-- Overwrite column `c` cell-wise through `f` (`df[c] = f(df[c])`). -/
def mapCol (df : Frame) (c : String) (f : Val → Val) : Frame :=
  { cols := addCol df.cols c
    rows := df.rows.map fun r => setF r c (f (getV r c)) }

/-- Set column `c` from column `src` cell-wise (`df[c] = g(df[src])`). -/
def setColMap (df : Frame) (c src : String) (f : Val → Val) : Frame :=
  { cols := addCol df.cols c
    rows := df.rows.map fun r => setF r c (f (getV r src)) }

/-- Lines 111-114: coerce `Data` to datetime when it is not a datetime
column (`errors='coerce'`), re-coercing once more if the first pass left
any `NaT`.  (The fallback re-parses the already-overwritten column, so on
our value level it is a second application of the same coercion.) -/
def parseDataCol (df : Frame) : Frame :=
  if isDatetimeCol df "Data" then df
  else
    let d1 := mapCol df "Data" toDatetimeV
    if d1.rows.any fun r => (getV r "Data").isNan then
      mapCol d1 "Data" toDatetimeV
    else d1

/-- `agg('min')` over one group column, with `skipna`. -/
def colMin (vs : List Val) : Val :=
  match (vs.filterMap Val.toQ).min? with
  | some q => .num q
  | none => .nan

/-- `agg('max')` over one group column, with `skipna`. -/
def colMax (vs : List Val) : Val :=
  match (vs.filterMap Val.toQ).max? with
  | some q => .num q
  | none => .nan

/-- `agg('sum')` over one group column: missing entries are skipped, and
a group with no numeric entry sums to `0` (pandas `min_count=0`). -/
def colSum (vs : List Val) : Val := .num (vs.filterMap Val.toQ).sum

/-- Grouping-key order used by `groupby(['region', 'date'])` (pandas
sorts group keys ascending). -/
def aggKeyLe (a b : Val × Val) : Prop :=
  ((match a.1, b.1 with
    | .str x, .str y => decide (x < y)
    | _, _ => false) ||
   (a.1 == b.1 &&
    ((match a.2, b.2 with
      | .date x, .date y => decide (x < y)
      | _, _ => false) || a.2 == b.2))) = true

instance : DecidableRel aggKeyLe := fun a b => by
  unfold aggKeyLe
  infer_instance

/-- The `(region, date)` key of a row. -/
def aggKey (r : Row) : Val × Val := (getV r "region", getV r "date")

/-- The group keys of `groupby(['region', 'date'])`: keys of rows whose
key components are both present (pandas drops groups with missing keys),
first occurrences, in key-sorted order. -/
def aggKeys (rows : List Row) : List (Val × Val) :=
  (((rows.filter fun r =>
      !(getV r "region").isNan && !(getV r "date").isNan).map aggKey).dedup).insertionSort
    aggKeyLe

/-- Lines 125-140: `groupby(['region', 'date']).agg({temp: [mean, min,
max], radiation: mean, precip: sum}).reset_index()`, followed by the
positional flattening of the column labels to
`region, date, temp_mean, temp_min, temp_max, radiation_mean,
precipitation_total` (lines 132-137; pandas produces tuple labels that
the source immediately renames positionally, so the embedding emits the
final labels directly), and `date = to_datetime(date)` (line 140, an
identity on the already-date-typed key). -/
def groupAggInmet (rows : List Row) : Frame :=
  { cols := ["region", "date", "temp_mean", "temp_min", "temp_max",
             "radiation_mean", "precipitation_total"]
    rows := (aggKeys rows).map fun k =>
      let g := rows.filter fun r => aggKey r == k
      [("region", k.1),
       ("date", toDatetimeV k.2),
       ("temp_mean", windowMean (g.map fun r => getV r tempCol)),
       ("temp_min", colMin (g.map fun r => getV r tempCol)),
       ("temp_max", colMax (g.map fun r => getV r tempCol)),
       ("radiation_mean", windowMean (g.map fun r => getV r radiationCol)),
       ("precipitation_total", colSum (g.map fun r => getV r precipCol))] }

/-- `Preprocessor.aggregate_inmet_by_region` (lines 86-143): parse
`Data`, truncate to a `date` column, aggregate per `(region, date)`. -/
def aggregateInmetByRegion (df : Frame) : Frame :=
  let d1 := parseDataCol df
  let d2 := setColMap d1 "date" "Data" dtDateV
  groupAggInmet d2.rows

/-! ## `Preprocessor.merge_ons_inmet`
(src/data/preprocessor.py lines 145-181) -/

/-- Line 170: `rename(columns={'nom_subsistema': 'region'})`. -/
def renameColFrame (df : Frame) (old new : String) : Frame :=
  { cols := df.cols.map fun c => if c = old then new else c
    rows := df.rows.map (List.map fun p => if p.1 = old then (new, p.2) else p) }

/-- Column selection `df[[c₁, ..., cₙ]]`. -/
def selectCols (df : Frame) (cs : List String) : Frame :=
  { cols := cs
    rows := df.rows.map fun r => cs.map fun c => (c, getV r c) }

/-- Lines 173-178: `pd.merge(left, right, on=['date', 'region'],
how='inner')`.  Output order is left-major (pandas preserves the order of
the left keys for inner joins); for each matching pair the left row is
extended with the right row's non-key columns.  Key equality is `Val`
equality, under which missing keys match each other, as pandas merge
keys do. -/
def innerMergeOn (l r : Frame) : Frame :=
  { cols := l.cols ++ r.cols.filter fun c => !(c == "date") && !(c == "region")
    rows := l.rows.flatMap fun lr =>
      (r.rows.filter fun rr =>
          getV rr "date" == getV lr "date" &&
          getV rr "region" == getV lr "region").map fun rr =>
        lr ++ rr.filter fun p => !(p.1 == "date") && !(p.1 == "region") }

/-- `Preprocessor.merge_ons_inmet` (lines 145-181): build the
date-truncated key (`date = to_datetime(din_instante.dt.date)`), rename
`nom_subsistema` to `region`, select the three load columns, and
inner-join with the aggregated weather table on `(date, region)`. -/
def mergeOnsInmet (ons inmet : Frame) : Frame :=
  let p1 := setColMap ons "date" "din_instante" dtDateV
  let p2 := mapCol p1 "date" toDatetimeV
  let p3 := renameColFrame p2 "nom_subsistema" "region"
  innerMergeOn (selectCols p3 ["date", "region", "val_cargaenergiamwmed"]) inmet

/-! ## `Preprocessor.engineer_features`
(src/data/preprocessor.py lines 183-241) -/

/-- Map with the row index (position in the frame). -/
def mapIdxRows (f : ℕ → Row → Row) : ℕ → List Row → List Row
  | _, [] => []
  | i, r :: rs => f i r :: mapIdxRows f (i + 1) rs

/-- One column assignment `df[c] = g(df)`: `g` sees the rows of the
frame being assigned (position, row) and produces the new cell. -/
def setColIdx (df : Frame) (c : String) (g : List Row → ℕ → Row → Val) : Frame :=
  { cols := addCol df.cols c
    rows := mapIdxRows (fun i r => setF r c (g df.rows i r)) 0 df.rows }

/-- The `region` component of the line-205 sort key.  A missing or
non-string region sorts via the empty string; the claims below only
exercise string-typed regions, where this is pandas' lexicographic
order. -/
def regionKeyStr (r : Row) : String :=
  match getV r "region" with
  | .str s => s
  | _ => ""

/-- The `date` component of the line-205 sort key. -/
def dateKeyInt (r : Row) : ℤ :=
  match getV r "date" with
  | .date d => d
  | .ts d _ => d
  | _ => 0

/-- Row order of line 205's `sort_values(['region', 'date'])`:
lexicographic on (region, date). -/
def rowSortLe (a b : Row) : Prop :=
  regionKeyStr a < regionKeyStr b ∨
    (regionKeyStr a = regionKeyStr b ∧ dateKeyInt a ≤ dateKeyInt b)

instance : DecidableRel rowSortLe := fun a b => by
  unfold rowSortLe
  infer_instance

instance : IsTotal Row rowSortLe where
  total a b := by
    rcases lt_trichotomy (regionKeyStr a) (regionKeyStr b) with h | h | h
    · exact Or.inl (Or.inl h)
    · rcases le_total (dateKeyInt a) (dateKeyInt b) with h2 | h2
      · exact Or.inl (Or.inr ⟨h, h2⟩)
      · exact Or.inr (Or.inr ⟨h.symm, h2⟩)
    · exact Or.inr (Or.inl h)

instance : IsTrans Row rowSortLe where
  trans a b c hab hbc := by
    rcases hab with h1 | ⟨h1, h1d⟩
    · rcases hbc with h2 | ⟨h2, _⟩
      · exact Or.inl (h1.trans h2)
      · exact Or.inl (h2 ▸ h1)
    · rcases hbc with h2 | ⟨h2, h2d⟩
      · exact Or.inl (h1 ▸ h2)
      · exact Or.inr ⟨h1.trans h2, h1d.trans h2d⟩

/-- Line 205: `feature_df = feature_df.sort_values(['region', 'date'])`.
The embedding uses a stable sort; it coincides with the source's
(unstable, but deterministic) sort whenever no two rows share a
`(region, date)` key, which is a hypothesis of every order-sensitive
claim below. -/
def sortValues (df : Frame) : Frame :=
  { cols := df.cols, rows := df.rows.insertionSort rowSortLe }

/-- Lines 213-218: the Southern-Hemisphere season dictionary applied via
`Series.map`; a month outside the dictionary would give `NaN`. -/
def seasonVal : Val → Val
  | .num q =>
    ((([((12 : ℚ), "Summer"), (1, "Summer"), (2, "Summer"),
        (3, "Fall"), (4, "Fall"), (5, "Fall"),
        (6, "Winter"), (7, "Winter"), (8, "Winter"),
        (9, "Spring"), (10, "Spring"), (11, "Spring")]).lookup q).map
      Val.str).getD .nan
  | _ => .nan

/-- Lines 222-227: one cell of
`groupby('region')[c].transform(lambda x: x.rolling(window=w,
min_periods=1).mean())`: within the row's region group (rows in frame
order; a missing region key makes the whole cell `NaN`, since pandas
drops missing group keys), take the trailing window of at most `w` group
entries ending at this row and average its numeric entries. -/
def maVal (rows : List Row) (i : ℕ) (valCol : String) (w : ℕ) : Val :=
  let k := getV (rows.getD i []) "region"
  if k.isNan then .nan
  else
    windowMean (lastN w
      (((rows.take (i + 1)).filter fun r => getV r "region" == k).map
        fun r => getV r valCol))

/-- The numeric load entries of one region group, in frame order
(`skipna`). -/
def regionNums (rows : List Row) (k : Val) : List ℚ :=
  ((rows.filter fun r => getV r "region" == k).map
    fun r => getV r "val_cargaenergiamwmed").filterMap Val.toQ

/-- Lines 230-232: one cell of `groupby('region')[load].transform(lambda
x: (x - x.mean()) / x.std())`.  The cell is `NaN` when the row's load or
region key is missing, when the group has at most one numeric entry
(`std` is `NaN`), or when the group is constant (`0/0`); otherwise it is
the symbolic value `(x - mean)/sqrt var` (see `Val.zsc`). -/
def zscVal (rows : List Row) (r : Row) : Val :=
  let k := getV r "region"
  if k.isNan then .nan
  else
    match (getV r "val_cargaenergiamwmed").toQ with
    | none => .nan
    | some x =>
      let nums := regionNums rows k
      if sampleVar nums = 0 then .nan
      else .zsc x (qMean nums) (sampleVar nums)

/-- Line 235: `(np.abs(load_zscore) > 2.5).astype(int)`.  On the
symbolic Z-score `(x - mean)/sqrt var` (with `var > 0` by construction
of `Val.zsc`), `|z| > 5/2` is exactly `25·var < 4·(x - mean)²`;
a missing Z-score compares `False`, hence flag `0`. -/
def anomalyVal : Val → Val
  | .zsc x m v => if 25 * v < 4 * (x - m) ^ 2 then .num 1 else .num 0
  | .num q => if 5 / 2 < |q| then .num 1 else .num 0
  | _ => .num 0

/-- Line 238: one cell of
`groupby('region')[load].pct_change(periods=30)`: the ratio of this
row's load to the load 30 group-positions earlier, minus 1; missing when
the row's region key is missing, when fewer than 30 group rows precede,
or when either operand is non-numeric.  (Lean's `x/0 = 0` stands in for
the infinity pandas produces on a zero denominator; no claim reads this
column's values.) -/
def momVal (rows : List Row) (i : ℕ) : Val :=
  let k := getV (rows.getD i []) "region"
  if k.isNan then .nan
  else
    let series := ((rows.take (i + 1)).filter fun r =>
      getV r "region" == k).map fun r => getV r "val_cargaenergiamwmed"
    if series.length < 31 then .nan
    else
      match (series.getD (series.length - 31) .nan).toQ,
            (series.getD (series.length - 1) .nan).toQ with
      | some p, some x => .num (x / p - 1)
      | _, _ => .nan

/-- `engineer_features` after line 205 (`sort_values(['region',
'date'])`). -/
def ef0 (df : Frame) : Frame := sortValues df

/-- ... after line 208 (`day_of_week`). -/
def ef1 (df : Frame) : Frame :=
  setColIdx (ef0 df) "day_of_week" fun _ _ r => dowVal (getV r "date")

/-- ... after line 209 (`month`). -/
def ef2 (df : Frame) : Frame :=
  setColIdx (ef1 df) "month" fun _ _ r => monthVal (getV r "date")

/-- ... after line 210 (`year`). -/
def ef3 (df : Frame) : Frame :=
  setColIdx (ef2 df) "year" fun _ _ r => yearVal (getV r "date")

/-- ... after lines 213-218 (`season`, mapped from the `month` column
just assigned). -/
def ef4 (df : Frame) : Frame :=
  setColIdx (ef3 df) "season" fun _ _ r => seasonVal (getV r "month")

/-- ... after the `w = 7` loop iteration's `load_ma_7d` (lines
222-224). -/
def ef5 (df : Frame) : Frame :=
  setColIdx (ef4 df) "load_ma_7d" fun rs i _ =>
    maVal rs i "val_cargaenergiamwmed" 7

/-- ... after `temp_ma_7d` (lines 225-227). -/
def ef6 (df : Frame) : Frame :=
  setColIdx (ef5 df) "temp_ma_7d" fun rs i _ => maVal rs i "temp_mean" 7

/-- ... after the `w = 30` iteration's `load_ma_30d`. -/
def ef7 (df : Frame) : Frame :=
  setColIdx (ef6 df) "load_ma_30d" fun rs i _ =>
    maVal rs i "val_cargaenergiamwmed" 30

/-- ... after `temp_ma_30d`. -/
def ef8 (df : Frame) : Frame :=
  setColIdx (ef7 df) "temp_ma_30d" fun rs i _ => maVal rs i "temp_mean" 30

/-- ... after lines 230-232 (`load_zscore`). -/
def ef9 (df : Frame) : Frame :=
  setColIdx (ef8 df) "load_zscore" fun rs _ r => zscVal rs r

/-- ... after line 235 (`is_anomaly`, read off the `load_zscore` column
just assigned). -/
def ef10 (df : Frame) : Frame :=
  setColIdx (ef9 df) "is_anomaly" fun _ _ r => anomalyVal (getV r "load_zscore")

/-- `Preprocessor.engineer_features` (lines 183-241): the sort of line
205 followed by the eleven column assignments of lines 208-238, one
`ef`-stage per source assignment, ending with line 238
(`load_mom`). -/
def engineerFeatures (df : Frame) : Frame :=
  setColIdx (ef10 df) "load_mom" fun rs i _ => momVal rs i

/-! ## `weather_utils.process_weather` (src/weather_utils/process_weather.py) -/

/-- Split a character list at every occurrence of `sep` (the behaviour
of `str.split(sep)` / `String.splitOn` for a one-character
separator). -/
def splitChar (sep : Char) : List Char → List (List Char)
  | [] => [[]]
  | c :: cs =>
    match splitChar sep cs with
    | [] => [[]]
    | p :: ps => if c = sep then [] :: p :: ps else (c :: p) :: ps

/-- Read a non-empty all-digit character list as a natural number. -/
def digitsToNat (cs : List Char) : Option ℕ :=
  if cs = [] then none
  else if cs.all Char.isDigit then
    some (cs.foldl (fun a c => 10 * a + (c.toNat - 48)) 0)
  else none

/-- Parse a decimal literal (optional sign, digits, at most one `.`)
into an exact rational.  This covers the decimal forms the pipeline's
data exercises; exotic Python float syntax (exponents, `inf`, padding)
is out of scope for every claim. -/
def parseFloatQ (s : String) : Option ℚ :=
  let (sgn, body) : ℚ × List Char :=
    match s.data with
    | '-' :: rest => (-1, rest)
    | cs => (1, cs)
  match splitChar '.' body with
  | [ip] => (digitsToNat ip).map fun n => sgn * n
  | [ip, fp] =>
    match digitsToNat ip, digitsToNat fp with
    | some a, some b => some (sgn * ((a : ℚ) + (b : ℚ) / 10 ^ fp.length))
    | _, _ => none
  | _ => none

/-- `replace(',', '.', regex=True)` on one string. -/
def replaceCommaDot (s : String) : String :=
  ⟨s.data.map fun c => if c = ',' then '.' else c⟩

/-- Lines 26-27 of `fix_decimal_commas`, one cell:
`astype(str).replace(',', '.', regex=True).astype(float)`.
A numeric cell round-trips; missing data prints as `"nan"` which
`float` parses back to `NaN`; a string has its commas replaced and is
parsed, `astype(float)` raising (`Except.error`) when it is not
numeric. -/
def fixCell : Val → Except Unit Val
  | .num q => .ok (.num q)
  | .nan => .ok .nan
  | .str s =>
    match parseFloatQ (replaceCommaDot s) with
    | some q => .ok (.num q)
    | none => .error ()
  | _ => .error ()

/-- Apply a fallible cell conversion to a whole column. -/
def mapColE (df : Frame) (c : String) (f : Val → Except Unit Val) :
    Except Unit Frame := do
  let rows ← df.rows.mapM fun r => do
    let v ← f (getV r c)
    pure (setF r c v)
  pure { cols := addCol df.cols c, rows := rows }

/-- `fix_decimal_commas` (lines 17-36): convert `temperatura` and
`precipitacao` to floats, then `precipitacao.fillna(0)` (the docstring's
"Precipitação -> Zera o valor"), then drop rows whose `temperatura` is
missing. -/
def fixDecimalCommas (df : Frame) : Except Unit Frame := do
  let t ← mapColE df "temperatura" fixCell
  let p ← mapColE t "precipitacao" fixCell
  let p2 := mapCol p "precipitacao" fun v => if v.isNan then .num 0 else v
  pure { cols := p2.cols
         rows := p2.rows.filter fun r => !(getV r "temperatura").isNan }

/-- Group-key order for `groupby('data')` (sorted ascending). -/
def dataKeyLe (a b : Val) : Prop :=
  ((match a, b with
    | .date x, .date y => decide (x < y)
    | _, _ => false) || a == b) = true

instance : DecidableRel dataKeyLe := fun a b => by
  unfold dataKeyLe
  infer_instance

/-- `merge_weather_files` (lines 39-45): concatenate the per-station
frames and take the per-`data` mean of `temperatura` and
`precipitacao` over all stations. -/
def mergeWeatherFiles (dfs : List Frame) : Frame :=
  let rows := dfs.flatMap Frame.rows
  let keys := (((rows.filter fun r => !(getV r "data").isNan).map
    fun r => getV r "data").dedup).insertionSort dataKeyLe
  { cols := ["data", "temperatura", "precipitacao"]
    rows := keys.map fun k =>
      let g := rows.filter fun r => getV r "data" == k
      [("data", k),
       ("temperatura", windowMean (g.map fun r => getV r "temperatura")),
       ("precipitacao", windowMean (g.map fun r => getV r "precipitacao"))] }

/-! ## `INMETLoader` (src/data/loaders.py lines 128-303) and
`src/utils/config.py` -/

/-- `STATE_TO_REGION` (config.py lines 13-48). -/
def STATE_TO_REGION : List (String × String) :=
  [("AC", "Norte"), ("AP", "Norte"), ("AM", "Norte"), ("PA", "Norte"),
   ("RO", "Norte"), ("RR", "Norte"), ("TO", "Norte"),
   ("AL", "Nordeste"), ("BA", "Nordeste"), ("CE", "Nordeste"),
   ("MA", "Nordeste"), ("PB", "Nordeste"), ("PE", "Nordeste"),
   ("PI", "Nordeste"), ("RN", "Nordeste"), ("SE", "Nordeste"),
   ("ES", "Sudeste/Centro-Oeste"), ("MG", "Sudeste/Centro-Oeste"),
   ("RJ", "Sudeste/Centro-Oeste"), ("SP", "Sudeste/Centro-Oeste"),
   ("DF", "Sudeste/Centro-Oeste"), ("GO", "Sudeste/Centro-Oeste"),
   ("MT", "Sudeste/Centro-Oeste"), ("MS", "Sudeste/Centro-Oeste"),
   ("PR", "Sul"), ("RS", "Sul"), ("SC", "Sul")]

/-- `str.upper()`. -/
def upperStr (s : String) : String := ⟨s.data.map Char.toUpper⟩

/-- `get_region_from_state` (config.py lines 51-68):
`STATE_TO_REGION.get(state_code.upper(), 'Unknown')`. -/
def getRegionFromState (stateCode : String) : String :=
  (STATE_TO_REGION.lookup (upperStr stateCode)).getD "Unknown"

/-- `extract_state_from_filename` (config.py lines 71-95): the third
underscore-separated component, `'UNKNOWN'` when the name has fewer than
three components. -/
def extractStateFromFilename (filename : String) : String :=
  let parts := (splitChar '_' filename.data).map String.mk
  if 3 ≤ parts.length then parts.getD 2 "UNKNOWN" else "UNKNOWN"

/-- One station CSV inside the yearly ZIP: its member name and its
lines. -/
structure StationFile where
  name : String
  lines : List String
deriving DecidableEq, Repr

/-- One cell as `read_csv(sep=';', decimal=',')` parses it: empty field
is missing, a decimal (comma) literal becomes a float, anything else
stays a string.  (pandas infers dtypes per column rather than per cell;
no claim distinguishes the two.) -/
def parseCsvCell (s : String) : Val :=
  if s = "" then .nan
  else
    match parseFloatQ (replaceCommaDot s) with
    | some q => .num q
    | none => .str s

/-- Loaders lines 217-223: `pd.read_csv(file, sep=';', skiprows=8,
decimal=',')`.  The first 8 lines are the station metadata preamble, the
ninth is the header.  A file with nothing after the skipped preamble
makes `read_csv` raise (`EmptyDataError`), the parse failure the
`except` clause of `_extract_station_data` catches — embedded as
`none`. -/
def readStationCSV (f : StationFile) : Option Frame :=
  match f.lines.drop 8 with
  | [] => none
  | header :: body =>
    let cols := (splitChar ';' header.data).map String.mk
    some { cols := cols
           rows := body.map fun ln =>
             cols.zip (((splitChar ';' ln.data).map String.mk).map parseCsvCell) }

/-- Loaders lines 226-236: attach `station_code` (fourth
underscore-separated component of the member name, `'UNKNOWN'` when
absent), `state_code`, and `source_file` to a parsed station frame. -/
def stationMeta (f : StationFile) (df : Frame) : Frame :=
  let parts := (splitChar '_' f.name.data).map String.mk
  let station := if 3 < parts.length then parts.getD 3 "UNKNOWN" else "UNKNOWN"
  let d1 := mapCol df "station_code" fun _ => .str station
  let d2 := mapCol d1 "state_code" fun _ => .str (extractStateFromFilename f.name)
  mapCol d2 "source_file" fun _ => .str f.name

/-- One iteration of the `for csv_file in csv_files` loop (lines
212-240): parse the file and attach its metadata; `none` when the parse
raised (the `except` prints a warning and `continue`s). -/
def extractOneStation (f : StationFile) : Option Frame :=
  (readStationCSV f).map (stationMeta f)

/-- `INMETLoader._extract_station_data` (lines 195-242): every station
file that parses, in archive order; files that fail to parse are
skipped. -/
def extractStationData (files : List StationFile) : List Frame :=
  files.filterMap extractOneStation

/-- `pd.concat(station_dfs, ignore_index=True)` (line 295): all rows in
order; the column set is the union in order of first appearance, a row
reading as missing under labels its own frame lacks. -/
def concatFrames (dfs : List Frame) : Frame :=
  { cols := dfs.foldl (fun acc df => df.cols.foldl addCol acc) []
    rows := dfs.flatMap Frame.rows }

/-- `INMETLoader.load` (lines 256-303), from the downloaded archive
onwards: extract the station frames, raise `ValueError("No valid
station data found ...")` when none parsed, otherwise concatenate and
map `region` from `state_code`. -/
def inmetLoad (files : List StationFile) : Except String Frame :=
  let dfs := extractStationData files
  if dfs.isEmpty then .error "No valid station data found"
  else
    .ok (setColMap (concatFrames dfs) "region" "state_code" fun v =>
      match v with
      | .str s => .str (getRegionFromState s)
      | _ => .nan)

/-! ## Object-level (aliasing) model of the four `Preprocessor` stages

Python passes DataFrames by reference, so "does a stage mutate its
argument?" is a statement about objects, not values.  The heap below
maps object ids to frame values; a pandas method that returns a new
frame allocates, an in-place column assignment `obj[c] = ...` writes to
the object it targets.  Each program below follows its source method
statement by statement. -/

/-- A heap of DataFrame objects, indexed by allocation order. -/
abbrev Heap := List Frame

/-- Dereference an object id. -/
def hread (h : Heap) (i : ℕ) : Frame := h.getD i ⟨[], []⟩

/-- Allocate a fresh object holding `t`; returns the new heap and id. -/
def halloc (h : Heap) (t : Frame) : Heap × ℕ := (h ++ [t], h.length)

/-- Overwrite the object at id `i`. -/
def hwrite (h : Heap) (i : ℕ) (t : Frame) : Heap := h.set i t

/-- `clean_ons_data(self, df)` on the heap.  `df.copy()` (line 61)
allocates; `dropna`, `drop_duplicates` and boolean-mask selection (lines
64-74) each return new frames (rebinding `clean_df`); lines 77-78
conditionally write the datetime coercion in place into the object
`clean_df` last pointed at (`ensureDatetimeOns` is the identity when the
condition is false, in which case pandas performs no write either). -/
def cleanOnsDataProg (h : Heap) (df : ℕ) : Heap × ℕ :=
  let a1 := halloc h (hread h df)
  let a2 := halloc a1.1 (dropnaCritical (hread a1.1 a1.2))
  let a3 := halloc a2.1 (dropDuplicatesOns (hread a2.1 a2.2))
  let a4 := halloc a3.1 (zscoreFilterOns (hread a3.1 a3.2))
  let h5 := hwrite a4.1 a4.2 (ensureDatetimeOns (hread a4.1 a4.2))
  (h5, a4.2)

/-- `aggregate_inmet_by_region(self, df)` on the heap: `df.copy()` (line
108) allocates, lines 111-117 write the `Data`/`date` columns in place,
the `groupby(...).agg(...).reset_index()` chain plus the label flatten
and `date` coercion (lines 125-140) builds the new `aggregated`
object. -/
def aggregateInmetProg (h : Heap) (df : ℕ) : Heap × ℕ :=
  let a1 := halloc h (hread h df)
  let h2 := hwrite a1.1 a1.2 (parseDataCol (hread a1.1 a1.2))
  let h3 := hwrite h2 a1.2 (setColMap (hread h2 a1.2) "date" "Data" dtDateV)
  let a2 := halloc h3 (groupAggInmet (hread h3 a1.2).rows)
  (a2.1, a2.2)

/-- `merge_ons_inmet(self, ons_df, inmet_df)` on the heap:
`ons_df.copy()` (line 165) allocates, lines 166-167 write the `date`
column in place, `rename` (line 170) and `pd.merge` with the column
selection (lines 173-178) allocate; `inmet_df` is only ever read. -/
def mergeOnsInmetProg (h : Heap) (ons inmet : ℕ) : Heap × ℕ :=
  let a1 := halloc h (hread h ons)
  let h2 := hwrite a1.1 a1.2 (setColMap (hread a1.1 a1.2) "date" "din_instante" dtDateV)
  let h3 := hwrite h2 a1.2 (mapCol (hread h2 a1.2) "date" toDatetimeV)
  let a2 := halloc h3 (renameColFrame (hread h3 a1.2) "nom_subsistema" "region")
  let a3 := halloc a2.1 (innerMergeOn
    (selectCols (hread a2.1 a2.2) ["date", "region", "val_cargaenergiamwmed"])
    (hread a2.1 inmet))
  (a3.1, a3.2)

/-- `engineer_features(self, df)` on the heap: `df.copy()` (line 202)
allocates, `sort_values` (line 205) allocates, and each of the eleven
feature columns (lines 208-238) is written in place into the sorted
object. -/
def engineerFeaturesProg (h : Heap) (df : ℕ) : Heap × ℕ :=
  let a1 := halloc h (hread h df)
  let a2 := halloc a1.1 (sortValues (hread a1.1 a1.2))
  let w := fun (hh : Heap) (c : String) (g : List Row → ℕ → Row → Val) =>
    hwrite hh a2.2 (setColIdx (hread hh a2.2) c g)
  let h1 := w a2.1 "day_of_week" fun _ _ r => dowVal (getV r "date")
  let h2 := w h1 "month" fun _ _ r => monthVal (getV r "date")
  let h3 := w h2 "year" fun _ _ r => yearVal (getV r "date")
  let h4 := w h3 "season" fun _ _ r => seasonVal (getV r "month")
  let h5 := w h4 "load_ma_7d" fun rs i _ => maVal rs i "val_cargaenergiamwmed" 7
  let h6 := w h5 "temp_ma_7d" fun rs i _ => maVal rs i "temp_mean" 7
  let h7 := w h6 "load_ma_30d" fun rs i _ => maVal rs i "val_cargaenergiamwmed" 30
  let h8 := w h7 "temp_ma_30d" fun rs i _ => maVal rs i "temp_mean" 30
  let h9 := w h8 "load_zscore" fun rs _ r => zscVal rs r
  let h10 := w h9 "is_anomaly" fun _ _ r => anomalyVal (getV r "load_zscore")
  let h11 := w h10 "load_mom" fun rs i _ => momVal rs i
  (h11, a2.2)

theorem hread_halloc_lt (h : Heap) (t : Frame) (k : ℕ) (hk : k < h.length) :
    hread (halloc h t).1 k = hread h k := by
  unfold hread halloc
  unfold List.getD
  simp only [List.get?_eq_getElem?]
  rw [List.getElem?_append_left hk]

theorem hread_hwrite_ne (h : Heap) (i k : ℕ) (t : Frame) (hk : k ≠ i) :
    hread (hwrite h i t) k = hread h k := by
  unfold hread hwrite
  unfold List.getD
  simp only [List.get?_eq_getElem?]
  rw [List.getElem?_set_ne (fun hh => hk hh.symm)]

theorem halloc_length (h : Heap) (t : Frame) :
    (halloc h t).1.length = h.length + 1 := by
  simp [halloc]

theorem hwrite_length (h : Heap) (i : ℕ) (t : Frame) :
    (hwrite h i t).length = h.length := by
  simp [hwrite]

theorem hread_append_lt (h : Heap) (t : Frame) (k : ℕ) (hk : k < h.length) :
    hread (h ++ [t]) k = hread h k := hread_halloc_lt h t k hk

theorem cleanOnsDataProg_pres (h : Heap) (i : ℕ) (hi : i < h.length) :
    hread (cleanOnsDataProg h i).1 i = hread h i := by
  simp only [cleanOnsDataProg, halloc]
  rw [hread_hwrite_ne]
  · rw [hread_append_lt, hread_append_lt, hread_append_lt, hread_append_lt h _ _ hi]
    · simp only [List.length_append, List.length_cons, List.length_nil]
      omega
    · simp only [List.length_append, List.length_cons, List.length_nil]
      omega
    · simp only [List.length_append, List.length_cons, List.length_nil]
      omega
  · simp only [List.length_append, List.length_cons, List.length_nil]
    omega

theorem aggregateInmetProg_pres (h : Heap) (i : ℕ) (hi : i < h.length) :
    hread (aggregateInmetProg h i).1 i = hread h i := by
  simp only [aggregateInmetProg, halloc]
  rw [hread_append_lt]
  · rw [hread_hwrite_ne, hread_hwrite_ne, hread_append_lt h _ _ hi]
    · omega
    · omega
  · simp only [hwrite_length, List.length_append, List.length_cons, List.length_nil]
    omega

theorem mergeOnsInmetProg_pres (h : Heap) (i j k : ℕ) (hk : k < h.length) :
    hread (mergeOnsInmetProg h i j).1 k = hread h k := by
  simp only [mergeOnsInmetProg, halloc]
  rw [hread_append_lt, hread_append_lt]
  · rw [hread_hwrite_ne, hread_hwrite_ne, hread_append_lt h _ _ hk]
    · omega
    · omega
  · simp only [hwrite_length, List.length_append, List.length_cons, List.length_nil]
    omega
  · simp only [hwrite_length, List.length_append, List.length_cons, List.length_nil]
    omega

theorem engineerFeaturesProg_pres (h : Heap) (i : ℕ) (hi : i < h.length) :
    hread (engineerFeaturesProg h i).1 i = hread h i := by
  simp only [engineerFeaturesProg, halloc]
  rw [hread_hwrite_ne, hread_hwrite_ne, hread_hwrite_ne, hread_hwrite_ne,
    hread_hwrite_ne, hread_hwrite_ne, hread_hwrite_ne, hread_hwrite_ne,
    hread_hwrite_ne, hread_hwrite_ne, hread_hwrite_ne,
    hread_append_lt, hread_append_lt h _ _ hi]
  all_goals
    simp only [List.length_append, List.length_cons, List.length_nil]
    omega

/-- C10: Every Preprocessor stage leaves its argument DataFrame(s)
unchanged: for every heap of frame objects and ids of the argument
objects, `clean_ons_data`, `aggregate_inmet_by_region`,
`merge_ons_inmet`, and `engineer_features` (each modelled statement by
statement, with `df.copy()` allocating a fresh object and in-place
column assignments writing only to objects the stage itself allocated)
leave the caller's argument objects holding exactly the frame they held
before the call. -/
theorem preprocessor_stages_leave_inputs_unchanged (h : Heap) (i j : ℕ)
    (hi : i < h.length) (hj : j < h.length) :
    hread (cleanOnsDataProg h i).1 i = hread h i ∧
    hread (aggregateInmetProg h i).1 i = hread h i ∧
    hread (mergeOnsInmetProg h i j).1 i = hread h i ∧
    hread (mergeOnsInmetProg h i j).1 j = hread h j ∧
    hread (engineerFeaturesProg h i).1 i = hread h i :=
  ⟨cleanOnsDataProg_pres h i hi, aggregateInmetProg_pres h i hi,
   mergeOnsInmetProg_pres h i j i hi, mergeOnsInmetProg_pres h i j j hj,
   engineerFeaturesProg_pres h i hi⟩

/-- A small concrete ONS frame (two complete hourly records). -/
def exOnsA : Frame :=
  { cols := ["din_instante", "nom_subsistema", "val_cargaenergiamwmed"]
    rows := [
      [("din_instante", .ts 0 0), ("nom_subsistema", .str "Sul"),
       ("val_cargaenergiamwmed", .num 100)],
      [("din_instante", .ts 1 0), ("nom_subsistema", .str "Sul"),
       ("val_cargaenergiamwmed", .num 104)]] }

/-- A small concrete aggregated-weather frame. -/
def exInmetA : Frame :=
  { cols := ["region", "date", "temp_mean", "temp_min", "temp_max",
             "radiation_mean", "precipitation_total"]
    rows := [
      [("region", .str "Sul"), ("date", .date 0), ("temp_mean", .num 20),
       ("temp_min", .num 15), ("temp_max", .num 25),
       ("radiation_mean", .num 1000), ("precipitation_total", .num 0)]] }

/-- Witness for C10 at a concrete two-object heap. -/
theorem preprocessor_stages_leave_inputs_unchanged_witness :
    hread (cleanOnsDataProg [exOnsA, exInmetA] 0).1 0 = hread [exOnsA, exInmetA] 0 ∧
    hread (aggregateInmetProg [exOnsA, exInmetA] 0).1 0 = hread [exOnsA, exInmetA] 0 ∧
    hread (mergeOnsInmetProg [exOnsA, exInmetA] 0 1).1 0 = hread [exOnsA, exInmetA] 0 ∧
    hread (mergeOnsInmetProg [exOnsA, exInmetA] 0 1).1 1 = hread [exOnsA, exInmetA] 1 ∧
    hread (engineerFeaturesProg [exOnsA, exInmetA] 0).1 0 = hread [exOnsA, exInmetA] 0 :=
  preprocessor_stages_leave_inputs_unchanged [exOnsA, exInmetA] 0 1
    (by decide) (by decide)

/-! ## Infrastructure lemmas about `setColIdx` pipelines -/

theorem mapIdxRows_length (f : ℕ → Row → Row) (n : ℕ) (rs : List Row) :
    (mapIdxRows f n rs).length = rs.length := by
  induction rs generalizing n with
  | nil => rfl
  | cons r rs ih => simp [mapIdxRows, ih]

theorem mapIdxRows_getD (f : ℕ → Row → Row) (n i : ℕ) (rs : List Row)
    (hi : i < rs.length) :
    (mapIdxRows f n rs).getD i [] = f (n + i) (rs.getD i []) := by
  induction rs generalizing n i with
  | nil => simp at hi
  | cons r rs ih =>
    cases i with
    | zero => simp [mapIdxRows]
    | succ i =>
      have hi' : i < rs.length := by simpa using hi
      simp only [mapIdxRows, List.getD_cons_succ]
      rw [ih (n + 1) i hi']
      ring_nf

theorem length_setColIdx (df : Frame) (c : String) (g : List Row → ℕ → Row → Val) :
    (setColIdx df c g).rows.length = df.rows.length := by
  simp [setColIdx, mapIdxRows_length]

theorem getV_setColIdx_same (df : Frame) (c : String)
    (g : List Row → ℕ → Row → Val) (i : ℕ) (hi : i < df.rows.length) :
    getV ((setColIdx df c g).rows.getD i []) c = g df.rows i (df.rows.getD i []) := by
  simp only [setColIdx]
  rw [mapIdxRows_getD _ _ _ _ hi, Nat.zero_add, getV_setF_same]

theorem getV_setColIdx_ne (df : Frame) (c c' : String)
    (g : List Row → ℕ → Row → Val) (i : ℕ) (h : c' ≠ c) :
    getV ((setColIdx df c g).rows.getD i []) c' = getV (df.rows.getD i []) c' := by
  by_cases hi : i < df.rows.length
  · simp only [setColIdx]
    rw [mapIdxRows_getD _ _ _ _ hi, Nat.zero_add, getV_setF_ne _ _ _ _ h]
  · have h1 : (setColIdx df c g).rows.getD i [] = [] := by
      apply List.getD_eq_default
      rw [length_setColIdx]
      omega
    have h2 : df.rows.getD i [] = [] := List.getD_eq_default _ _ (by omega)
    rw [h1, h2]

/-- Rows agreeing on the columns in `cs`. -/
def AgreeOn (cs : List String) (r r' : Row) : Prop :=
  ∀ c ∈ cs, getV r c = getV r' c

theorem agreeOn_refl (cs : List String) (r : Row) : AgreeOn cs r r :=
  fun _ _ => rfl

theorem agreeOn_trans {cs : List String} {a b c : Row}
    (h1 : AgreeOn cs a b) (h2 : AgreeOn cs b c) : AgreeOn cs a c :=
  fun x hx => (h1 x hx).trans (h2 x hx)

theorem forall₂_agree_refl (cs : List String) (rs : List Row) :
    List.Forall₂ (AgreeOn cs) rs rs := by
  induction rs with
  | nil => exact List.Forall₂.nil
  | cons r rs ih => exact List.Forall₂.cons (agreeOn_refl cs r) ih

theorem forall₂_agree_trans {cs : List String} {l1 l2 l3 : List Row}
    (h1 : List.Forall₂ (AgreeOn cs) l1 l2) (h2 : List.Forall₂ (AgreeOn cs) l2 l3) :
    List.Forall₂ (AgreeOn cs) l1 l3 := by
  induction h1 generalizing l3 with
  | nil =>
    cases h2
    exact List.Forall₂.nil
  | cons ha _ ih =>
    cases h2 with
    | cons hb htl => exact List.Forall₂.cons (agreeOn_trans ha hb) (ih htl)

theorem mapIdxRows_setF_agree (c : String) (cs : List String)
    (g0 : ℕ → Row → Val) (hc : c ∉ cs) (n : ℕ) (rs : List Row) :
    List.Forall₂ (AgreeOn cs) (mapIdxRows (fun i r => setF r c (g0 i r)) n rs) rs := by
  induction rs generalizing n with
  | nil => exact List.Forall₂.nil
  | cons r rs ih =>
    refine List.Forall₂.cons (fun c' hc' => ?_) (ih _)
    exact getV_setF_ne _ _ _ _ (fun he => hc (he ▸ hc'))

/-- A column write leaves the rows agreeing on every other column. -/
theorem setColIdx_agree (df : Frame) (c : String) (cs : List String)
    (g : List Row → ℕ → Row → Val) (hc : c ∉ cs) :
    List.Forall₂ (AgreeOn cs) (setColIdx df c g).rows df.rows :=
  mapIdxRows_setF_agree c cs (g df.rows) hc 0 df.rows

theorem forall₂_agree_length {cs : List String} {l1 l2 : List Row}
    (h : List.Forall₂ (AgreeOn cs) l1 l2) : l1.length = l2.length :=
  h.length_eq

theorem forall₂_agree_getD {cs : List String} {l1 l2 : List Row}
    (h : List.Forall₂ (AgreeOn cs) l1 l2) (i : ℕ) (hi : i < l1.length) :
    AgreeOn cs (l1.getD i []) (l2.getD i []) := by
  induction h generalizing i with
  | nil => simp at hi
  | cons ha htl ih =>
    cases i with
    | zero => simpa using ha
    | succ i =>
      simp only [List.getD_cons_succ]
      exact ih i (by simpa using hi)

theorem forall₂_agree_take {cs : List String} {l1 l2 : List Row}
    (h : List.Forall₂ (AgreeOn cs) l1 l2) (n : ℕ) :
    List.Forall₂ (AgreeOn cs) (l1.take n) (l2.take n) := by
  induction h generalizing n with
  | nil => simp [List.Forall₂.nil]
  | cons ha htl ih =>
    cases n with
    | zero => simp [List.Forall₂.nil]
    | succ n => exact List.Forall₂.cons ha (ih n)

/-- Filtering by a predicate and projecting by a function that both
factor through the columns in `cs` gives the same list on rows that
agree on `cs`. -/
theorem forall₂_agree_filter_map {cs : List String} {l1 l2 : List Row}
    (h : List.Forall₂ (AgreeOn cs) l1 l2) (p : Row → Bool) {β : Type}
    (f : Row → β)
    (hp : ∀ r r', AgreeOn cs r r' → p r = p r')
    (hf : ∀ r r', AgreeOn cs r r' → f r = f r') :
    (l1.filter p).map f = (l2.filter p).map f := by
  induction h with
  | nil => rfl
  | @cons a b l₁ l₂ ha htl ih =>
    simp only [List.filter_cons]
    rw [hp _ _ ha]
    cases hpb : p b with
    | false => simp [hpb, ih]
    | true => simp [hpb, hf _ _ ha, ih]

theorem mem_mapIdxRows {f : ℕ → Row → Row} {n : ℕ} {rs : List Row} {row : Row}
    (h : row ∈ mapIdxRows f n rs) : ∃ i r, r ∈ rs ∧ row = f i r := by
  induction rs generalizing n with
  | nil => simp [mapIdxRows] at h
  | cons r rs ih =>
    simp only [mapIdxRows, List.mem_cons] at h
    rcases h with h | h
    · exact ⟨n, r, List.mem_cons_self r rs, h⟩
    · obtain ⟨i, r', hr', he⟩ := ih h
      exact ⟨i, r', List.mem_cons.mpr (Or.inr hr'), he⟩

theorem mem_setColIdx {df : Frame} {c : String} {g : List Row → ℕ → Row → Val}
    {row : Row} (h : row ∈ (setColIdx df c g).rows) :
    ∃ i r, r ∈ df.rows ∧ row = setF r c (g df.rows i r) := by
  simpa only [setColIdx] using mem_mapIdxRows h

/-- `(np.abs(z) > 2.5).astype(int)` only ever produces the
integers 0 and 1. -/
theorem anomalyVal_binary (v : Val) :
    anomalyVal v = .num 0 ∨ anomalyVal v = .num 1 := by
  cases v with
  | num q =>
    rw [show anomalyVal (.num q) = if 5 / 2 < |q| then Val.num 1 else Val.num 0
      from rfl]
    split
    · exact Or.inr rfl
    · exact Or.inl rfl
  | zsc x m vv =>
    rw [show anomalyVal (.zsc x m vv) =
        if 25 * vv < 4 * (x - m) ^ 2 then Val.num 1 else Val.num 0 from rfl]
    split
    · exact Or.inr rfl
    · exact Or.inl rfl
  | str s => exact Or.inl rfl
  | date d => exact Or.inl rfl
  | ts d h => exact Or.inl rfl
  | nan => exact Or.inl rfl

/-- A merged-schema example with two regions and a degenerate
(zero-variance) region `Norte`. -/
def exMergedA : Frame :=
  { cols := ["date", "region", "val_cargaenergiamwmed", "temp_mean", "temp_min",
             "temp_max", "radiation_mean", "precipitation_total"]
    rows := [
      [("date", .date 1), ("region", .str "Sul"), ("val_cargaenergiamwmed", .num 10),
       ("temp_mean", .num 20), ("temp_min", .num 15), ("temp_max", .num 25),
       ("radiation_mean", .num 900), ("precipitation_total", .num 0)],
      [("date", .date 0), ("region", .str "Norte"), ("val_cargaenergiamwmed", .num 100),
       ("temp_mean", .num 30), ("temp_min", .num 26), ("temp_max", .num 33),
       ("radiation_mean", .num 1100), ("precipitation_total", .num 5)],
      [("date", .date 0), ("region", .str "Sul"), ("val_cargaenergiamwmed", .num 20),
       ("temp_mean", .num 22), ("temp_min", .num 16), ("temp_max", .num 27),
       ("radiation_mean", .num 950), ("precipitation_total", .num 2)],
      [("date", .date 1), ("region", .str "Norte"), ("val_cargaenergiamwmed", .num 100),
       ("temp_mean", .num 31), ("temp_min", .num 27), ("temp_max", .num 34),
       ("radiation_mean", .num 1050), ("precipitation_total", .num 1)],
      [("date", .date 2), ("region", .str "Sul"), ("val_cargaenergiamwmed", .num 30),
       ("temp_mean", .num 24), ("temp_min", .num 18), ("temp_max", .num 29),
       ("radiation_mean", .num 980), ("precipitation_total", .num 0)]] }

/-- On every output row of `engineer_features`, the anomaly flag is the
integer 0 or 1 (shared kernel of C5 and C2). -/
theorem anomaly_col_binary (df : Frame) :
    ∀ row ∈ (engineerFeatures df).rows,
      getV row "is_anomaly" = .num 0 ∨ getV row "is_anomaly" = .num 1 := by
  intro row hrow
  obtain ⟨_, r1, hr1, he1⟩ := mem_setColIdx hrow
  obtain ⟨_, r2, _, he2⟩ := mem_setColIdx hr1
  subst he1
  subst he2
  rw [getV_setF_ne _ _ _ _ (by decide), getV_setF_same]
  exact anomalyVal_binary _

/-- C5: For every input in which some region's load series has zero
variance, the anomaly flag is still a well-defined 0-or-1 value on every
output row — the degenerate Z-score (`NaN` from the zero/undefined
standard deviation) compares `False` against the 2.5 threshold and
yields flag 0, it never propagates as a missing flag value. -/
theorem is_anomaly_always_binary (df : Frame)
    (_hdeg : ∃ r ∈ df.rows, sampleVar (regionNums df.rows (getV r "region")) = 0) :
    ∀ row ∈ (engineerFeatures df).rows,
      getV row "is_anomaly" = .num 0 ∨ getV row "is_anomaly" = .num 1 :=
  anomaly_col_binary df

theorem sortValues_rows_length (df : Frame) :
    (sortValues df).rows.length = df.rows.length := by
  simp [sortValues, List.length_insertionSort]

theorem engineerFeatures_rows_length (df : Frame) :
    (engineerFeatures df).rows.length = df.rows.length := by
  simp only [engineerFeatures, ef10, ef9, ef8, ef7, ef6, ef5, ef4, ef3, ef2,
    ef1, ef0, length_setColIdx]
  exact sortValues_rows_length df

theorem getD_mem_of_lt {l : List Row} {i : ℕ} (h : i < l.length) :
    l.getD i [] ∈ l := by
  rw [List.getD_eq_getElem l [] h]
  exact List.getElem_mem h

/-- Witness for C5: a frame whose region `Norte` has two equal loads
(zero variance); the flag on the first output row is well defined. -/
theorem is_anomaly_always_binary_witness :
    getV ((engineerFeatures exMergedA).rows.getD 0 []) "is_anomaly" = .num 0 ∨
    getV ((engineerFeatures exMergedA).rows.getD 0 []) "is_anomaly" = .num 1 :=
  is_anomaly_always_binary exMergedA (by decide) _
    (getD_mem_of_lt (by rw [engineerFeatures_rows_length]; decide))

/-- The eleven derived columns of `engineer_features`, in assignment
order (source lines 208-238). -/
def featureNames : List String :=
  ["day_of_week", "month", "year", "season", "load_ma_7d", "temp_ma_7d",
   "load_ma_30d", "temp_ma_30d", "load_zscore", "is_anomaly", "load_mom"]

theorem setColIdx_cols (df : Frame) (c : String) (g : List Row → ℕ → Row → Val) :
    (setColIdx df c g).cols = addCol df.cols c := rfl

theorem sortValues_cols (df : Frame) : (sortValues df).cols = df.cols := rfl

theorem engineerFeatures_cols (df : Frame) :
    (engineerFeatures df).cols = List.foldl addCol df.cols featureNames := by
  simp only [engineerFeatures, ef10, ef9, ef8, ef7, ef6, ef5, ef4, ef3, ef2,
    ef1, ef0, setColIdx_cols, sortValues_cols, featureNames, List.foldl]

theorem mem_addCol (acc : List String) (c c' : String) :
    c ∈ addCol acc c' ↔ c ∈ acc ∨ c = c' := by
  unfold addCol
  split
  · rename_i hmem
    constructor
    · exact Or.inl
    · rintro (h | h)
      · exact h
      · exact h ▸ hmem
  · simp

theorem mem_foldl_addCol (cs : List String) (acc : List String) (c : String) :
    c ∈ List.foldl addCol acc cs ↔ c ∈ acc ∨ c ∈ cs := by
  induction cs generalizing acc with
  | nil => simp
  | cons c' cs ih =>
    simp only [List.foldl_cons, ih, mem_addCol, List.mem_cons]
    tauto

theorem foldl_addCol_of_all_mem (cs : List String) (acc : List String)
    (h : ∀ c ∈ cs, c ∈ acc) : List.foldl addCol acc cs = acc := by
  induction cs with
  | nil => rfl
  | cons c' cs ih =>
    have hacc : addCol acc c' = acc := by
      unfold addCol
      rw [if_pos (h c' (List.mem_cons_self c' cs))]
    simp only [List.foldl_cons, hacc]
    exact ih fun c hc => h c (List.mem_cons.mpr (Or.inr hc))

/-- C7 counterexample: re-running `engineer_features` on its own
already-featured output does NOT grow the column count — every feature
column assignment overwrites the existing column in place, so the column
count stays at 19 on the concrete featured table
`engineer_features exMergedA`. -/
theorem engineer_features_rerun_grows_columns_false :
    ¬ ((engineerFeatures (engineerFeatures exMergedA)).cols.length >
        (engineerFeatures exMergedA).cols.length) := by decide

/-- C7 amended: re-running the Feature Engine on a table that already
carries all eleven feature columns leaves the column set exactly
unchanged (in particular the column count does not grow). -/
theorem engineer_features_refeaturing_keeps_columns (df : Frame)
    (h : ∀ c ∈ featureNames, c ∈ df.cols) :
    (engineerFeatures df).cols = df.cols := by
  rw [engineerFeatures_cols]
  exact foldl_addCol_of_all_mem _ _ h

/-- Witness for the amended C7 at the concrete featured table. -/
theorem engineer_features_refeaturing_keeps_columns_witness :
    (engineerFeatures (engineerFeatures exMergedA)).cols =
      (engineerFeatures exMergedA).cols :=
  engineer_features_refeaturing_keeps_columns _ (by decide)

/-- C6 counterexample: the Feature Engine's output contains none of the
lag columns the claim asserts; on the concrete merged table `exMergedA`
not one of `load_lag_1d`, `load_lag_7d`, `temp_lag_1d`, `temp_lag_7d`
appears among the output columns. -/
theorem engineer_features_lag_columns_false :
    ¬ ("load_lag_1d" ∈ (engineerFeatures exMergedA).cols ∧
       "load_lag_7d" ∈ (engineerFeatures exMergedA).cols ∧
       "temp_lag_1d" ∈ (engineerFeatures exMergedA).cols ∧
       "temp_lag_7d" ∈ (engineerFeatures exMergedA).cols) := by decide

/-- C6 amended: `engineer_features` derives no lag columns at all — for
every merged input table without pre-existing lag columns, the output
contains none of `load_lag_1d`, `load_lag_7d`, `temp_lag_1d`,
`temp_lag_7d` (the engine adds exactly the calendar, rolling-mean,
Z-score, anomaly and month-over-month columns). -/
theorem engineer_features_adds_no_lag_columns (df : Frame)
    (h : ∀ c ∈ ["load_lag_1d", "load_lag_7d", "temp_lag_1d", "temp_lag_7d"],
      c ∉ df.cols) :
    ∀ c ∈ ["load_lag_1d", "load_lag_7d", "temp_lag_1d", "temp_lag_7d"],
      c ∉ (engineerFeatures df).cols := by
  intro c hc
  rw [engineerFeatures_cols, mem_foldl_addCol]
  rintro (h1 | h2)
  · exact h c hc h1
  · fin_cases hc <;> simp [featureNames] at h2

/-- Witness for the amended C6 at the concrete merged table. -/
theorem engineer_features_adds_no_lag_columns_witness :
    "load_lag_1d" ∉ (engineerFeatures exMergedA).cols ∧
    "load_lag_7d" ∉ (engineerFeatures exMergedA).cols ∧
    "temp_lag_1d" ∉ (engineerFeatures exMergedA).cols ∧
    "temp_lag_7d" ∉ (engineerFeatures exMergedA).cols :=
  ⟨engineer_features_adds_no_lag_columns exMergedA (by decide) _ (by decide),
   engineer_features_adds_no_lag_columns exMergedA (by decide) _ (by decide),
   engineer_features_adds_no_lag_columns exMergedA (by decide) _ (by decide),
   engineer_features_adds_no_lag_columns exMergedA (by decide) _ (by decide)⟩

/-- A constant-load ONS input: two complete records, distinct
timestamps, same region, equal loads. -/
def exOnsConst : Frame :=
  { cols := ["din_instante", "nom_subsistema", "val_cargaenergiamwmed"]
    rows := [
      [("din_instante", .ts 19700 0), ("nom_subsistema", .str "SUL"),
       ("val_cargaenergiamwmed", .num 100)],
      [("din_instante", .ts 19701 0), ("nom_subsistema", .str "SUL"),
       ("val_cargaenergiamwmed", .num 100)]] }

/-- C4 (code bug): on a constant load series the Load Cleaner does NOT
special-case the zero standard deviation.  The Z-scores of lines 69-73
are `0/0 = NaN`, the mask `NaN <= 3` is `False`, and line 74 removes
EVERY row: on the concrete constant input `exOnsConst`, the two
deduplicated complete records survive dropna and dedup, yet
`clean_ons_data` returns an empty table — instead of the "no outliers
removed" behaviour the spec requires. -/
theorem clean_ons_constant_series_drops_every_row :
    (dropDuplicatesOns (dropnaCritical exOnsConst)).rows.length = 2 ∧
    (cleanOnsData exOnsConst).rows = [] := by
  constructor
  · decide
  · decide

/-- C9: `INMETLoader.load` raises the "no valid station data" error for
a year exactly when zero station files parse successfully; a load that
returns does so with at least one successfully parsed station file; and
an individual station file that fails to parse is skipped without
aborting the extraction of the remaining files. -/
theorem inmet_load_raises_iff_no_station_parses (files : List StationFile) :
    ((∃ e, inmetLoad files = .error e) ↔ ∀ f ∈ files, extractOneStation f = none) ∧
    (∀ out, inmetLoad files = .ok out → ∃ f ∈ files, extractOneStation f ≠ none) ∧
    (∀ f fs, extractOneStation f = none →
      extractStationData (f :: fs) = extractStationData fs) := by
  have hempty : (extractStationData files).isEmpty = true ↔
      ∀ f ∈ files, extractOneStation f = none := by
    rw [List.isEmpty_iff]
    exact List.filterMap_eq_nil_iff
  refine ⟨?_, ?_, ?_⟩
  · unfold inmetLoad
    cases h : (extractStationData files).isEmpty with
    | true =>
      rw [if_pos h]
      exact ⟨fun _ => hempty.mp h, fun _ => ⟨_, rfl⟩⟩
    | false =>
      rw [if_neg (by simp [h])]
      constructor
      · rintro ⟨e, he⟩
        exact absurd he (by simp)
      · intro hall
        exact absurd (hempty.mpr hall) (by simp [h])
  · intro out hout
    unfold inmetLoad at hout
    by_contra hno
    push_neg at hno
    rw [if_pos (hempty.mpr hno)] at hout
    exact absurd hout (by simp)
  · intro f fs hf
    simp [extractStationData, List.filterMap_cons, hf]

/-- A station file whose content ends inside the 8-line metadata
preamble: `read_csv(skiprows=8)` raises on it. -/
def exBadStation : StationFile :=
  { name := "INMET_S_PR_A807_CURITIBA.CSV"
    lines := ["REGIAO: S", "UF: PR"] }

/-- Witness for C9: a year whose only station file fails to parse makes
the loader raise. -/
theorem inmet_load_raises_iff_no_station_parses_witness :
    ∃ e, inmetLoad [exBadStation] = .error e :=
  ((inmet_load_raises_iff_no_station_parses [exBadStation]).1).mpr (by decide)

/-- A standardized weather frame with two same-day station readings,
the second with a missing (null) precipitation. -/
def exWeatherRaw : Frame :=
  { cols := ["data", "temperatura", "precipitacao"]
    rows := [
      [("data", .date 0), ("temperatura", .str "20,0"), ("precipitacao", .str "10,0")],
      [("data", .date 0), ("temperatura", .str "21,0"), ("precipitacao", .nan)]] }

/-- C8 counterexample: in the `weather_utils` aggregation path a null
precipitation value DOES contribute 0.  `fix_decimal_commas` replaces
the missing precipitation with `0` (its `fillna(0)`, documented as
"Precipitação -> Zera o valor"), and the daily cross-station mean taken
by `merge_weather_files` then averages the real reading 10 with that 0,
yielding 5 instead of 10 — the zero biases the cell exactly as the
claim says must not happen. -/
theorem fix_decimal_commas_null_precip_contributes_zero :
    ((fixDecimalCommas exWeatherRaw).toOption.map fun out =>
      out.rows.map fun r => getV r "precipitacao") = some [.num 10, .num 0] ∧
    ((fixDecimalCommas exWeatherRaw).toOption.map fun out =>
      (mergeWeatherFiles [out]).rows.map fun r => getV r "precipitacao") =
        some [.num 5] := by
  constructor
  · decide
  · decide

/-- The input rows of one `(region, date)` aggregation cell: key `k` is
the pair (region value, date-truncated `Data` value). -/
def inmetCellRows (df : Frame) (k : Val × Val) : List Row :=
  df.rows.filter fun r => (getV r "region", dtDateV (getV r "Data")) == k

theorem d2rows_eq (df : Frame) :
    (setColMap df "date" "Data" dtDateV).rows =
      df.rows.map fun r => setF r "date" (dtDateV (getV r "Data")) := rfl

theorem aggKey_setF_date (r : Row) (v : Val) :
    aggKey (setF r "date" v) = (getV r "region", v) := by
  unfold aggKey
  rw [getV_setF_ne _ _ _ _ (by decide), getV_setF_same]

/-- The group that `groupby(['region', 'date'])` selects for key `k` is
exactly the cell rows of `k`, with the derived `date` column written on
each. -/
theorem inmet_group_eq (df : Frame) (k : Val × Val) :
    ((setColMap df "date" "Data" dtDateV).rows.filter fun r2 => aggKey r2 == k) =
      (inmetCellRows df k).map fun r => setF r "date" (dtDateV (getV r "Data")) := by
  rw [d2rows_eq, List.filter_map]
  unfold inmetCellRows
  congr 1
  apply List.filter_congr
  intro r _
  simp only [Function.comp_apply, aggKey_setF_date]

theorem inmet_group_proj (df : Frame) (k : Val × Val) (c : String)
    (hc : c ≠ "date") :
    (((setColMap df "date" "Data" dtDateV).rows.filter
        fun r2 => aggKey r2 == k).map fun r => getV r c) =
      (inmetCellRows df k).map fun r => getV r c := by
  rw [inmet_group_eq, List.map_map]
  apply List.map_congr_left
  intro r _
  simp only [Function.comp_apply]
  exact getV_setF_ne _ _ _ _ hc

/-- C8 amended (the Preprocessor path): in
`aggregate_inmet_by_region`, every output row's `precipitation_total`
is the sum of exactly the numeric precipitation values of its
`(region, date)` cell — missing/unparsed entries are excluded, they do
not enter as 0 — and `temp_mean` is the mean of exactly the numeric
temperature values of the cell (`NaN` when there are none), so a
missing temperature does not contribute 0 to the mean.  (In the
`weather_utils` path, by contrast, `fix_decimal_commas` zeroes null
precipitation: see the counterexample.) -/
theorem aggregate_inmet_cell_excludes_missing (df : Frame)
    (hdt : isDatetimeCol df "Data" = true) :
    ∀ row ∈ (aggregateInmetByRegion df).rows,
      ∃ k : Val × Val,
        getV row "region" = k.1 ∧
        getV row "date" = toDatetimeV k.2 ∧
        getV row "precipitation_total" =
          .num (((inmetCellRows df k).map fun r => getV r precipCol).filterMap
            Val.toQ).sum ∧
        getV row "temp_mean" =
          (if (((inmetCellRows df k).map fun r => getV r tempCol).filterMap
              Val.toQ).isEmpty
           then Val.nan
           else .num (qMean (((inmetCellRows df k).map fun r => getV r tempCol).filterMap
              Val.toQ))) := by
  intro row hrow
  unfold aggregateInmetByRegion at hrow
  rw [show parseDataCol df = df from by unfold parseDataCol; rw [if_pos hdt]]
    at hrow
  simp only [groupAggInmet, List.mem_map] at hrow
  obtain ⟨k, _, rfl⟩ := hrow
  refine ⟨k, rfl, rfl, ?_, ?_⟩
  · show colSum _ = _
    unfold colSum
    rw [inmet_group_proj df k precipCol (by decide)]
  · show windowMean _ = _
    unfold windowMean
    rw [inmet_group_proj df k tempCol (by decide)]

/-- A raw INMET-shaped frame: three same-cell readings, one with a
missing temperature and precipitation. -/
def exInmetRawA : Frame :=
  { cols := ["Data", "region", tempCol, radiationCol, precipCol]
    rows := [
      [("Data", .date 3), ("region", .str "Sul"), (tempCol, .num 18),
       (radiationCol, .num 800), (precipCol, .num 4)],
      [("Data", .date 3), ("region", .str "Sul"), (tempCol, .nan),
       (radiationCol, .nan), (precipCol, .nan)],
      [("Data", .date 3), ("region", .str "Sul"), (tempCol, .num 22),
       (radiationCol, .num 900), (precipCol, .num 1)]] }

/-- Witness for the amended C8: on the concrete cell with readings
`{18, NaN, 22}` / `{4, NaN, 1}`, the aggregated row for
`(Sul, day 3)` exists with the missing entries excluded. -/
theorem aggregate_inmet_cell_excludes_missing_witness :
    ∃ k : Val × Val,
      getV ((aggregateInmetByRegion exInmetRawA).rows.getD 0 []) "region" = k.1 ∧
      getV ((aggregateInmetByRegion exInmetRawA).rows.getD 0 []) "date" =
        toDatetimeV k.2 ∧
      getV ((aggregateInmetByRegion exInmetRawA).rows.getD 0 [])
          "precipitation_total" =
        .num (((inmetCellRows exInmetRawA k).map fun r => getV r precipCol).filterMap
          Val.toQ).sum ∧
      getV ((aggregateInmetByRegion exInmetRawA).rows.getD 0 []) "temp_mean" =
        (if (((inmetCellRows exInmetRawA k).map fun r => getV r tempCol).filterMap
            Val.toQ).isEmpty
         then Val.nan
         else .num (qMean (((inmetCellRows exInmetRawA k).map fun r =>
            getV r tempCol).filterMap Val.toQ))) :=
  aggregate_inmet_cell_excludes_missing exInmetRawA (by decide) _ (by decide)

/-- The key row the Merger derives from one cleaned ONS record: the
date-truncated, re-`to_datetime`d timestamp, the region renamed from
`nom_subsistema`, and the load. -/
def onsKeyRow (r : Row) : Row :=
  [("date", toDatetimeV (dtDateV (getV r "din_instante"))),
   ("region", getV r "nom_subsistema"),
   ("val_cargaenergiamwmed", getV r "val_cargaenergiamwmed")]

theorem row_shape₃ {r : Row} {x y z : String}
    (h : r.map Prod.fst = [x, y, z]) :
    ∃ a b c, r = [(x, a), (y, b), (z, c)] := by
  rcases r with _ | ⟨⟨x', a⟩, r⟩
  · simp at h
  rcases r with _ | ⟨⟨y', b⟩, r⟩
  · simp at h
  rcases r with _ | ⟨⟨z', c⟩, r⟩
  · simp at h
  rcases r with _ | ⟨p, r⟩
  · simp only [List.map_cons, List.map_nil, List.cons.injEq, and_true] at h
    obtain ⟨hx, hy, hz⟩ := h
    subst hx
    subst hy
    subst hz
    exact ⟨a, b, c, rfl⟩
  · simp at h

/-- Under the cleaned ONS schema, the left side of the merge is exactly
the list of key rows. -/
theorem merge_left_rows (ons : Frame)
    (hcols : ∀ r ∈ ons.rows, r.map Prod.fst =
      ["din_instante", "nom_subsistema", "val_cargaenergiamwmed"]) :
    (selectCols (renameColFrame
        (mapCol (setColMap ons "date" "din_instante" dtDateV) "date" toDatetimeV)
        "nom_subsistema" "region")
      ["date", "region", "val_cargaenergiamwmed"]).rows =
      ons.rows.map onsKeyRow := by
  simp only [selectCols, renameColFrame, mapCol, setColMap, List.map_map]
  apply List.map_congr_left
  intro r hr
  obtain ⟨a, b, c, rfl⟩ := row_shape₃ (hcols r hr)
  rfl

theorem toDatetimeV_dtDateV_eq_date_iff (v : Val) (d : Day) :
    toDatetimeV (dtDateV v) = .date d ↔ dtDateV v = .date d := by
  cases v <;> simp [dtDateV, toDatetimeV]

theorem getV_onsKeyRow_append (r x : Row) :
    getV (onsKeyRow r ++ x) "date" =
      toDatetimeV (dtDateV (getV r "din_instante")) ∧
    getV (onsKeyRow r ++ x) "region" = getV r "nom_subsistema" :=
  ⟨rfl, rfl⟩

/-- C3: a `(date, region)` pair appears in the Merger's output exactly
when the cleaned load series has a record whose date-truncated timestamp
is that date for that region AND the aggregated weather table has a row
for that date and region — the join is strictly inner, a pair present on
only one side never appears (and is never null-filled, since output rows
are built only from matching row pairs). -/
theorem merge_inner_membership (ons inmet : Frame)
    (hcols : ∀ r ∈ ons.rows, r.map Prod.fst =
      ["din_instante", "nom_subsistema", "val_cargaenergiamwmed"]) :
    ∀ (d : Day) (g : String),
      (∃ row ∈ (mergeOnsInmet ons inmet).rows,
          getV row "date" = .date d ∧ getV row "region" = .str g) ↔
      ((∃ row ∈ ons.rows, dtDateV (getV row "din_instante") = .date d ∧
          getV row "nom_subsistema" = .str g) ∧
       (∃ row ∈ inmet.rows, getV row "date" = .date d ∧
          getV row "region" = .str g)) := by
  intro d g
  have hL : (mergeOnsInmet ons inmet).rows =
      (ons.rows.map onsKeyRow).flatMap fun lr =>
        (inmet.rows.filter fun rr =>
          getV rr "date" == getV lr "date" &&
          getV rr "region" == getV lr "region").map
          fun rr => lr ++ rr.filter fun p => !(p.1 == "date") && !(p.1 == "region") := by
    show (innerMergeOn (selectCols (renameColFrame
        (mapCol (setColMap ons "date" "din_instante" dtDateV) "date" toDatetimeV)
        "nom_subsistema" "region")
      ["date", "region", "val_cargaenergiamwmed"]) inmet).rows = _
    rw [show ∀ l r, (innerMergeOn l r).rows = l.rows.flatMap fun lr =>
        (r.rows.filter fun rr =>
          getV rr "date" == getV lr "date" &&
          getV rr "region" == getV lr "region").map
          fun rr => lr ++ rr.filter fun p => !(p.1 == "date") && !(p.1 == "region")
      from fun _ _ => rfl]
    rw [merge_left_rows ons hcols]
  rw [hL]
  constructor
  · rintro ⟨row, hrow, hdate, hreg⟩
    rw [List.mem_flatMap] at hrow
    obtain ⟨lr, hlr, hrow⟩ := hrow
    rw [List.mem_map] at hlr
    obtain ⟨r, hr, rfl⟩ := hlr
    rw [List.mem_map] at hrow
    obtain ⟨rr, hrr, rfl⟩ := hrow
    rw [List.mem_filter] at hrr
    obtain ⟨hrrmem, hcond⟩ := hrr
    rw [(getV_onsKeyRow_append r _).1] at hdate
    rw [(getV_onsKeyRow_append r _).2] at hreg
    rw [toDatetimeV_dtDateV_eq_date_iff] at hdate
    simp only [Bool.and_eq_true, beq_iff_eq] at hcond
    obtain ⟨hc1, hc2⟩ := hcond
    refine ⟨⟨r, hr, hdate, hreg⟩, ⟨rr, hrrmem, ?_, ?_⟩⟩
    · rw [hc1]
      show toDatetimeV (dtDateV (getV r "din_instante")) = .date d
      rw [toDatetimeV_dtDateV_eq_date_iff]
      exact hdate
    · rw [hc2]
      exact hreg
  · rintro ⟨⟨r, hr, hdate, hreg⟩, ⟨rr, hrr, hd2, hg2⟩⟩
    refine ⟨onsKeyRow r ++ rr.filter fun p => !(p.1 == "date") && !(p.1 == "region"),
      ?_, ?_, ?_⟩
    · rw [List.mem_flatMap]
      refine ⟨onsKeyRow r, List.mem_map.mpr ⟨r, hr, rfl⟩, ?_⟩
      rw [List.mem_map]
      refine ⟨rr, ?_, rfl⟩
      rw [List.mem_filter]
      refine ⟨hrr, ?_⟩
      simp only [Bool.and_eq_true, beq_iff_eq]
      constructor
      · show getV rr "date" = toDatetimeV (dtDateV (getV r "din_instante"))
        rw [hd2, show toDatetimeV (dtDateV (getV r "din_instante")) = .date d from
          (toDatetimeV_dtDateV_eq_date_iff _ _).mpr hdate]
      · show getV rr "region" = getV r "nom_subsistema"
        rw [hg2, hreg]
    · rw [(getV_onsKeyRow_append r _).1]
      exact (toDatetimeV_dtDateV_eq_date_iff _ _).mpr hdate
    · rw [(getV_onsKeyRow_append r _).2]
      exact hreg

/-- Cleaned ONS frame covering days 1, 2, 3 for region `Sul`. -/
def exOnsC3 : Frame :=
  { cols := ["din_instante", "nom_subsistema", "val_cargaenergiamwmed"]
    rows := [
      [("din_instante", .ts 1 0), ("nom_subsistema", .str "Sul"),
       ("val_cargaenergiamwmed", .num 100)],
      [("din_instante", .ts 2 0), ("nom_subsistema", .str "Sul"),
       ("val_cargaenergiamwmed", .num 102)],
      [("din_instante", .ts 3 0), ("nom_subsistema", .str "Sul"),
       ("val_cargaenergiamwmed", .num 98)]] }

/-- Aggregated weather covering days 2, 3, 4 for region `Sul`. -/
def exInmetC3 : Frame :=
  { cols := ["region", "date", "temp_mean", "temp_min", "temp_max",
             "radiation_mean", "precipitation_total"]
    rows := [
      [("region", .str "Sul"), ("date", .date 2), ("temp_mean", .num 20),
       ("temp_min", .num 15), ("temp_max", .num 25),
       ("radiation_mean", .num 1000), ("precipitation_total", .num 0)],
      [("region", .str "Sul"), ("date", .date 3), ("temp_mean", .num 21),
       ("temp_min", .num 16), ("temp_max", .num 26),
       ("radiation_mean", .num 1010), ("precipitation_total", .num 1)],
      [("region", .str "Sul"), ("date", .date 4), ("temp_mean", .num 22),
       ("temp_min", .num 17), ("temp_max", .num 27),
       ("radiation_mean", .num 1020), ("precipitation_total", .num 2)]] }

/-- Witness for C3 at the claim's scenario: load days {1,2,3} joined
with weather days {2,3,4} contains day 2 and contains neither the
load-only day 1 nor the weather-only day 4. -/
theorem merge_inner_membership_witness :
    (∃ row ∈ (mergeOnsInmet exOnsC3 exInmetC3).rows,
        getV row "date" = .date 2 ∧ getV row "region" = .str "Sul") ∧
    ¬ (∃ row ∈ (mergeOnsInmet exOnsC3 exInmetC3).rows,
        getV row "date" = .date 1 ∧ getV row "region" = .str "Sul") ∧
    ¬ (∃ row ∈ (mergeOnsInmet exOnsC3 exInmetC3).rows,
        getV row "date" = .date 4 ∧ getV row "region" = .str "Sul") :=
  ⟨(merge_inner_membership exOnsC3 exInmetC3 (by decide) 2 "Sul").mpr
      ⟨by decide, by decide⟩,
   fun h => absurd
     ((merge_inner_membership exOnsC3 exInmetC3 (by decide) 1 "Sul").mp h).2
     (by decide),
   fun h => absurd
     ((merge_inner_membership exOnsC3 exInmetC3 (by decide) 4 "Sul").mp h).1
     (by decide)⟩

/-! ## Bridging the Feature Engine pipeline back to the sorted frame -/

/-- The merged-table schema the Feature Engine's order-sensitive claims
assume: string region, date-typed date, numeric load and mean
temperature. -/
def MergedSchema (r : Row) : Prop :=
  (∃ a, getV r "region" = .str a) ∧ (∃ dd, getV r "date" = .date dd) ∧
  (∃ q, getV r "val_cargaenergiamwmed" = .num q) ∧
  (∃ q, getV r "temp_mean" = .num q)

/-- The columns the stateful feature computations read. -/
def baseCols : List String :=
  ["region", "date", "val_cargaenergiamwmed", "temp_mean"]

theorem agree_ef1 (df : Frame) :
    List.Forall₂ (AgreeOn baseCols) (ef1 df).rows (ef0 df).rows :=
  setColIdx_agree (ef0 df) _ baseCols _ (by decide)

theorem agree_ef2 (df : Frame) :
    List.Forall₂ (AgreeOn baseCols) (ef2 df).rows (ef0 df).rows :=
  forall₂_agree_trans (setColIdx_agree (ef1 df) _ baseCols _ (by decide))
    (agree_ef1 df)

theorem agree_ef3 (df : Frame) :
    List.Forall₂ (AgreeOn baseCols) (ef3 df).rows (ef0 df).rows :=
  forall₂_agree_trans (setColIdx_agree (ef2 df) _ baseCols _ (by decide))
    (agree_ef2 df)

theorem agree_ef4 (df : Frame) :
    List.Forall₂ (AgreeOn baseCols) (ef4 df).rows (ef0 df).rows :=
  forall₂_agree_trans (setColIdx_agree (ef3 df) _ baseCols _ (by decide))
    (agree_ef3 df)

theorem agree_ef5 (df : Frame) :
    List.Forall₂ (AgreeOn baseCols) (ef5 df).rows (ef0 df).rows :=
  forall₂_agree_trans (setColIdx_agree (ef4 df) _ baseCols _ (by decide))
    (agree_ef4 df)

theorem agree_ef6 (df : Frame) :
    List.Forall₂ (AgreeOn baseCols) (ef6 df).rows (ef0 df).rows :=
  forall₂_agree_trans (setColIdx_agree (ef5 df) _ baseCols _ (by decide))
    (agree_ef5 df)

theorem agree_ef7 (df : Frame) :
    List.Forall₂ (AgreeOn baseCols) (ef7 df).rows (ef0 df).rows :=
  forall₂_agree_trans (setColIdx_agree (ef6 df) _ baseCols _ (by decide))
    (agree_ef6 df)

theorem agree_ef8 (df : Frame) :
    List.Forall₂ (AgreeOn baseCols) (ef8 df).rows (ef0 df).rows :=
  forall₂_agree_trans (setColIdx_agree (ef7 df) _ baseCols _ (by decide))
    (agree_ef7 df)

theorem agree_ef9 (df : Frame) :
    List.Forall₂ (AgreeOn baseCols) (ef9 df).rows (ef0 df).rows :=
  forall₂_agree_trans (setColIdx_agree (ef8 df) _ baseCols _ (by decide))
    (agree_ef8 df)

theorem agree_ef10 (df : Frame) :
    List.Forall₂ (AgreeOn baseCols) (ef10 df).rows (ef0 df).rows :=
  forall₂_agree_trans (setColIdx_agree (ef9 df) _ baseCols _ (by decide))
    (agree_ef9 df)

theorem agree_final (df : Frame) :
    List.Forall₂ (AgreeOn baseCols) (engineerFeatures df).rows (ef0 df).rows :=
  forall₂_agree_trans (setColIdx_agree (ef10 df) _ baseCols _ (by decide))
    (agree_ef10 df)

theorem ef4_len (df : Frame) : (ef4 df).rows.length = df.rows.length := by
  simp only [ef4, ef3, ef2, ef1, length_setColIdx]
  exact sortValues_rows_length df

theorem ef8_len (df : Frame) : (ef8 df).rows.length = df.rows.length := by
  simp only [ef8, ef7, ef6, ef5, ef4, ef3, ef2, ef1, length_setColIdx]
  exact sortValues_rows_length df

theorem ef9_len (df : Frame) : (ef9 df).rows.length = df.rows.length := by
  simp only [ef9, ef8, ef7, ef6, ef5, ef4, ef3, ef2, ef1, length_setColIdx]
  exact sortValues_rows_length df

/-- `maVal` only reads the region key column and the value column, so
rows agreeing on those produce identical rolling cells. -/
theorem maVal_agree {cs : List String} {rs rs' : List Row}
    (h : List.Forall₂ (AgreeOn cs) rs rs') (i : ℕ) (c : String) (w : ℕ)
    (hreg : "region" ∈ cs) (hc : c ∈ cs) :
    maVal rs i c w = maVal rs' i c w := by
  have hlen := forall₂_agree_length h
  have hk : getV (rs.getD i []) "region" = getV (rs'.getD i []) "region" := by
    by_cases hi : i < rs.length
    · exact forall₂_agree_getD h i hi "region" hreg
    · rw [List.getD_eq_default _ _ (by omega), List.getD_eq_default _ _ (by omega)]
  unfold maVal
  rw [hk]
  by_cases hnan : (getV (rs'.getD i []) "region").isNan
  · rw [if_pos hnan, if_pos hnan]
  · rw [if_neg hnan, if_neg hnan]
    congr 1
    congr 1
    rw [forall₂_agree_filter_map (forall₂_agree_take h (i + 1)) _ _
      (fun r r' ha => by rw [ha "region" hreg])
      (fun r r' ha => ha c hc)]

/-- `zscVal` only reads the region key and load columns of the frame. -/
theorem zscVal_agree {cs : List String} {rs rs' : List Row}
    (h : List.Forall₂ (AgreeOn cs) rs rs') (r : Row)
    (hreg : "region" ∈ cs) (hload : "val_cargaenergiamwmed" ∈ cs) :
    zscVal rs r = zscVal rs' r := by
  unfold zscVal
  by_cases hnan : (getV r "region").isNan
  · rw [if_pos hnan, if_pos hnan]
  · rw [if_neg hnan, if_neg hnan]
    cases (getV r "val_cargaenergiamwmed").toQ with
    | none => rfl
    | some x =>
      have hn : regionNums rs (getV r "region") =
          regionNums rs' (getV r "region") := by
        unfold regionNums
        rw [forall₂_agree_filter_map h _ _
          (fun a b ha => by rw [ha "region" hreg])
          (fun a b ha => ha "val_cargaenergiamwmed" hload)]
      simp only [hn]

theorem ef5_len (df : Frame) : (ef5 df).rows.length = df.rows.length := by
  simp only [ef5, ef4, ef3, ef2, ef1, length_setColIdx]
  exact sortValues_rows_length df

theorem ef6_len (df : Frame) : (ef6 df).rows.length = df.rows.length := by
  simp only [ef6, ef5, ef4, ef3, ef2, ef1, length_setColIdx]
  exact sortValues_rows_length df

theorem ef7_len (df : Frame) : (ef7 df).rows.length = df.rows.length := by
  simp only [ef7, ef6, ef5, ef4, ef3, ef2, ef1, length_setColIdx]
  exact sortValues_rows_length df

theorem ef6_ne (df : Frame) (i : ℕ) (c : String) (h : c ≠ "temp_ma_7d") :
    getV ((ef6 df).rows.getD i []) c = getV ((ef5 df).rows.getD i []) c :=
  getV_setColIdx_ne _ _ _ _ _ h

theorem ef7_ne (df : Frame) (i : ℕ) (c : String) (h : c ≠ "load_ma_30d") :
    getV ((ef7 df).rows.getD i []) c = getV ((ef6 df).rows.getD i []) c :=
  getV_setColIdx_ne _ _ _ _ _ h

theorem ef8_ne (df : Frame) (i : ℕ) (c : String) (h : c ≠ "temp_ma_30d") :
    getV ((ef8 df).rows.getD i []) c = getV ((ef7 df).rows.getD i []) c :=
  getV_setColIdx_ne _ _ _ _ _ h

theorem ef9_ne (df : Frame) (i : ℕ) (c : String) (h : c ≠ "load_zscore") :
    getV ((ef9 df).rows.getD i []) c = getV ((ef8 df).rows.getD i []) c :=
  getV_setColIdx_ne _ _ _ _ _ h

theorem ef10_ne (df : Frame) (i : ℕ) (c : String) (h : c ≠ "is_anomaly") :
    getV ((ef10 df).rows.getD i []) c = getV ((ef9 df).rows.getD i []) c :=
  getV_setColIdx_ne _ _ _ _ _ h

theorem final_ne (df : Frame) (i : ℕ) (c : String) (h : c ≠ "load_mom") :
    getV ((engineerFeatures df).rows.getD i []) c =
      getV ((ef10 df).rows.getD i []) c :=
  getV_setColIdx_ne _ _ _ _ _ h

/-- Base-column reads of the final frame coincide with the sorted
frame's. -/
theorem getV_final_base (df : Frame) (i : ℕ) (c : String) (hc : c ∈ baseCols) :
    getV ((engineerFeatures df).rows.getD i []) c =
      getV ((ef0 df).rows.getD i []) c := by
  by_cases hi : i < df.rows.length
  · exact forall₂_agree_getD (agree_final df) i
      (by rw [engineerFeatures_rows_length]; exact hi) c hc
  · rw [List.getD_eq_default _ _ (by rw [engineerFeatures_rows_length]; omega),
      List.getD_eq_default _ _
        (show (ef0 df).rows.length ≤ i by
          rw [show (ef0 df).rows.length = df.rows.length from
            sortValues_rows_length df]
          omega)]

/-- The `load_ma_7d` cell of the final frame is the rolling value
computed over the sorted frame. -/
theorem final_ma7 (df : Frame) (i : ℕ) (hi : i < df.rows.length) :
    getV ((engineerFeatures df).rows.getD i []) "load_ma_7d" =
      maVal (ef0 df).rows i "val_cargaenergiamwmed" 7 := by
  rw [final_ne df i _ (by decide), ef10_ne df i _ (by decide),
    ef9_ne df i _ (by decide), ef8_ne df i _ (by decide),
    ef7_ne df i _ (by decide), ef6_ne df i _ (by decide)]
  rw [show getV ((ef5 df).rows.getD i []) "load_ma_7d" =
      maVal (ef4 df).rows i "val_cargaenergiamwmed" 7 from
    getV_setColIdx_same (ef4 df) _ _ i (by rw [ef4_len]; exact hi)]
  exact maVal_agree (agree_ef4 df) i _ 7 (by decide) (by decide)

/-- The `temp_ma_7d` cell likewise. -/
theorem final_tma7 (df : Frame) (i : ℕ) (hi : i < df.rows.length) :
    getV ((engineerFeatures df).rows.getD i []) "temp_ma_7d" =
      maVal (ef0 df).rows i "temp_mean" 7 := by
  rw [final_ne df i _ (by decide), ef10_ne df i _ (by decide),
    ef9_ne df i _ (by decide), ef8_ne df i _ (by decide),
    ef7_ne df i _ (by decide)]
  rw [show getV ((ef6 df).rows.getD i []) "temp_ma_7d" =
      maVal (ef5 df).rows i "temp_mean" 7 from
    getV_setColIdx_same (ef5 df) _ _ i (by rw [ef5_len]; exact hi)]
  exact maVal_agree (agree_ef5 df) i _ 7 (by decide) (by decide)

/-- The `load_ma_30d` cell likewise. -/
theorem final_ma30 (df : Frame) (i : ℕ) (hi : i < df.rows.length) :
    getV ((engineerFeatures df).rows.getD i []) "load_ma_30d" =
      maVal (ef0 df).rows i "val_cargaenergiamwmed" 30 := by
  rw [final_ne df i _ (by decide), ef10_ne df i _ (by decide),
    ef9_ne df i _ (by decide), ef8_ne df i _ (by decide)]
  rw [show getV ((ef7 df).rows.getD i []) "load_ma_30d" =
      maVal (ef6 df).rows i "val_cargaenergiamwmed" 30 from
    getV_setColIdx_same (ef6 df) _ _ i (by rw [ef6_len]; exact hi)]
  exact maVal_agree (agree_ef6 df) i _ 30 (by decide) (by decide)

/-- The `temp_ma_30d` cell likewise. -/
theorem final_tma30 (df : Frame) (i : ℕ) (hi : i < df.rows.length) :
    getV ((engineerFeatures df).rows.getD i []) "temp_ma_30d" =
      maVal (ef0 df).rows i "temp_mean" 30 := by
  rw [final_ne df i _ (by decide), ef10_ne df i _ (by decide),
    ef9_ne df i _ (by decide)]
  rw [show getV ((ef8 df).rows.getD i []) "temp_ma_30d" =
      maVal (ef7 df).rows i "temp_mean" 30 from
    getV_setColIdx_same (ef7 df) _ _ i (by rw [ef7_len]; exact hi)]
  exact maVal_agree (agree_ef7 df) i _ 30 (by decide) (by decide)

/-- `zscVal` reads of a row only go through its region and load
cells. -/
theorem zscVal_row_congr (rs : List Row) (r r' : Row)
    (hreg : getV r "region" = getV r' "region")
    (hload : getV r "val_cargaenergiamwmed" = getV r' "val_cargaenergiamwmed") :
    zscVal rs r = zscVal rs r' := by
  unfold zscVal
  rw [hreg, hload]

/-- The `is_anomaly` cell of the final frame is the thresholded
symbolic Z-score computed over the sorted frame. -/
theorem final_anomaly (df : Frame) (i : ℕ) (hi : i < df.rows.length) :
    getV ((engineerFeatures df).rows.getD i []) "is_anomaly" =
      anomalyVal (zscVal (ef0 df).rows ((ef0 df).rows.getD i [])) := by
  rw [final_ne df i _ (by decide)]
  rw [show getV ((ef10 df).rows.getD i []) "is_anomaly" =
      anomalyVal (getV ((ef9 df).rows.getD i []) "load_zscore") from
    getV_setColIdx_same (ef9 df) _ _ i (by rw [ef9_len]; exact hi)]
  rw [show getV ((ef9 df).rows.getD i []) "load_zscore" =
      zscVal (ef8 df).rows ((ef8 df).rows.getD i []) from
    getV_setColIdx_same (ef8 df) _ _ i (by rw [ef8_len]; exact hi)]
  rw [zscVal_agree (agree_ef8 df) _ (by decide) (by decide)]
  congr 1
  apply zscVal_row_congr
  · exact forall₂_agree_getD (agree_ef8 df) i (by rw [ef8_len]; exact hi)
      "region" (by decide)
  · exact forall₂_agree_getD (agree_ef8 df) i (by rw [ef8_len]; exact hi)
      "val_cargaenergiamwmed" (by decide)

theorem regionKeyStr_of_str {r : Row} {a : String}
    (h : getV r "region" = .str a) : regionKeyStr r = a := by
  unfold regionKeyStr
  rw [h]

theorem dateKeyInt_of_date {r : Row} {dd : Day}
    (h : getV r "date" = .date dd) : dateKeyInt r = dd := by
  unfold dateKeyInt
  rw [h]

/-- On the sorted frame, the same-region rows among the first `i + 1`
rows are exactly the same-region rows with date at or before row `i`'s
date: sorting groups each region contiguously in ascending date order,
and key distinctness forbids a later same-region row from sharing row
`i`'s date. -/
theorem prefix_filter_eq_le_filter (s : List Row)
    (hsort : List.Sorted rowSortLe s)
    (hschema : ∀ r ∈ s, MergedSchema r)
    (hnd : (s.map fun r => (getV r "region", getV r "date")).Nodup)
    (i : ℕ) (hi : i < s.length) :
    ((s.take (i + 1)).filter fun r =>
        getV r "region" == getV (s.getD i []) "region") =
      s.filter fun r =>
        getV r "region" == getV (s.getD i []) "region" &&
        (getV r "date").dle (getV (s.getD i []) "date") := by
  have hgetD : s.getD i [] = s[i] := List.getD_eq_getElem s [] hi
  rw [hgetD]
  obtain ⟨⟨ai, hai⟩, ⟨di, hdi⟩, -, -⟩ :=
    hschema s[i] (List.getElem_mem hi)
  -- Fact A: a same-region row within the prefix has date ≤ row i's date.
  have factA : ∀ j (hj : j < s.length), j ≤ i →
      (getV s[j] "region" == getV s[i] "region") = true →
      ((getV s[j] "date").dle (getV s[i] "date")) = true := by
    intro j hj hji hregeq
    obtain ⟨⟨aj, haj⟩, ⟨dj, hdj⟩, -, -⟩ := hschema s[j] (List.getElem_mem hj)
    rw [beq_iff_eq, hai, haj] at hregeq
    rw [hdj, hdi]
    show decide (dj ≤ di) = true
    rcases Nat.lt_or_ge j i with hlt | hge
    · have hrel := hsort.rel_get_of_lt
        (a := ⟨j, hj⟩) (b := ⟨i, hi⟩) hlt
      rcases hrel with hstr | ⟨-, hdate⟩
      · rw [show s.get ⟨j, hj⟩ = s[j] from rfl,
          show s.get ⟨i, hi⟩ = s[i] from rfl,
          regionKeyStr_of_str haj, regionKeyStr_of_str hai] at hstr
        rw [Val.str.injEq] at hregeq
        rw [hregeq] at hstr
        exact absurd hstr (lt_irrefl ai)
      · rw [show s.get ⟨j, hj⟩ = s[j] from rfl,
          show s.get ⟨i, hi⟩ = s[i] from rfl,
          dateKeyInt_of_date hdj, dateKeyInt_of_date hdi] at hdate
        exact decide_eq_true hdate
    · have hji' : j = i := le_antisymm hji hge
      subst hji'
      rw [hdj] at hdi
      rw [Val.date.injEq] at hdi
      rw [hdi]
      exact decide_eq_true le_rfl
  -- Fact B: a same-region row after the prefix has date strictly after
  -- row i's date.
  have factB : ∀ j (hj : j < s.length), i < j →
      (getV s[j] "region" == getV s[i] "region") = true →
      ((getV s[j] "date").dle (getV s[i] "date")) = false := by
    intro j hj hij hregeq
    obtain ⟨⟨aj, haj⟩, ⟨dj, hdj⟩, -, -⟩ := hschema s[j] (List.getElem_mem hj)
    rw [beq_iff_eq, hai, haj] at hregeq
    rw [hdj, hdi]
    show decide (dj ≤ di) = false
    have hrel := hsort.rel_get_of_lt (a := ⟨i, hi⟩) (b := ⟨j, hj⟩) hij
    have hdle : di ≤ dj := by
      rcases hrel with hstr | ⟨-, hdate⟩
      · rw [show s.get ⟨j, hj⟩ = s[j] from rfl,
          show s.get ⟨i, hi⟩ = s[i] from rfl,
          regionKeyStr_of_str haj, regionKeyStr_of_str hai] at hstr
        rw [Val.str.injEq] at hregeq
        rw [hregeq] at hstr
        exact absurd hstr (lt_irrefl ai)
      · rw [show s.get ⟨j, hj⟩ = s[j] from rfl,
          show s.get ⟨i, hi⟩ = s[i] from rfl,
          dateKeyInt_of_date hdj, dateKeyInt_of_date hdi] at hdate
        exact hdate
    apply decide_eq_false
    intro hle
    have hdeq : dj = di := le_antisymm hle hdle
    have hjm : j < (s.map fun r => (getV r "region", getV r "date")).length := by
      rw [List.length_map]
      exact hj
    have him : i < (s.map fun r => (getV r "region", getV r "date")).length := by
      rw [List.length_map]
      exact hi
    have hkeyeq : (s.map fun r => (getV r "region", getV r "date"))[j] =
        (s.map fun r => (getV r "region", getV r "date"))[i] := by
      rw [List.getElem_map, List.getElem_map]
      rw [Val.str.injEq] at hregeq
      rw [haj, hai, hdj, hdi, hregeq, hdeq]
    have := (List.Nodup.getElem_inj_iff hnd).mp hkeyeq
    omega
  -- Assemble, abstracting row i's key cells so the list split below
  -- rewrites only the filtered list.
  set kreg := getV s[i] "region" with hkreg
  set kdate := getV s[i] "date" with hkdate
  have hsplit : s = s.take (i + 1) ++ s.drop (i + 1) :=
    (List.take_append_drop (i + 1) s).symm
  conv_rhs => rw [hsplit]
  rw [List.filter_append]
  have htake : ((s.take (i + 1)).filter fun r =>
      getV r "region" == kreg && (getV r "date").dle kdate) =
      (s.take (i + 1)).filter fun r => getV r "region" == kreg := by
    apply List.filter_congr
    intro r hr
    obtain ⟨j, hjlen, hjr⟩ := List.mem_iff_getElem.mp hr
    have hjlt : j < min (i + 1) s.length := by
      simpa using hjlen
    have hjsl : j < s.length := by omega
    have hjs : (s.take (i + 1))[j] = s[j] :=
      List.getElem_take _
    cases hreq : (getV r "region" == kreg) with
    | false => simp
    | true =>
      have hreq' : (getV s[j] "region" == kreg) = true := by
        rw [← hjs, hjr]
        exact hreq
      have hdle := factA j (by omega) (by omega) hreq'
      rw [← hjr, hjs]
      simp only [Bool.and_eq_true, hdle, hreq']
      simp
  have hdrop : ((s.drop (i + 1)).filter fun r =>
      getV r "region" == kreg && (getV r "date").dle kdate) = [] := by
    rw [List.filter_eq_nil_iff]
    intro r hr
    obtain ⟨j, hjlen, hjr⟩ := List.mem_iff_getElem.mp hr
    have hjlen' : j < s.length - (i + 1) := by
      have := hjlen
      rw [List.length_drop] at this
      exact this
    have hjsl : i + 1 + j < s.length := by omega
    have hjs : (s.drop (i + 1))[j] = s[i + 1 + j] :=
      List.getElem_drop _
    intro hcontra
    rw [Bool.and_eq_true] at hcontra
    obtain ⟨hreq, hdle⟩ := hcontra
    rw [← hjr, hjs] at hreq hdle
    have hfb := factB (i + 1 + j) (by omega) (by omega) hreq
    rw [hfb] at hdle
    exact Bool.false_ne_true hdle
  rw [htake, hdrop, List.append_nil]

theorem lastN_map {α β : Type} (f : α → β) (n : ℕ) (l : List α) :
    lastN n (l.map f) = (lastN n l).map f := by
  unfold lastN
  rw [List.length_map, List.map_drop]

theorem lastN_subset {α : Type} (n : ℕ) (l : List α) {x : α}
    (hx : x ∈ lastN n l) : x ∈ l :=
  List.drop_subset _ _ hx

theorem lastN_ne_nil {α : Type} (n : ℕ) (hn : 0 < n) (l : List α)
    (hl : l ≠ []) : lastN n l ≠ [] := by
  unfold lastN
  intro h
  have hlen := congrArg List.length h
  rw [List.length_drop, List.length_nil] at hlen
  have hpos : 0 < l.length := List.length_pos.mpr hl
  omega

theorem filterMap_toQ_all (vs : List Val) (h : ∀ v ∈ vs, ∃ q, v = .num q) :
    vs.filterMap Val.toQ = vs.map fun v => v.toQ.getD 0 := by
  induction vs with
  | nil => rfl
  | cons v vs ih =>
    obtain ⟨q, rfl⟩ := h v (List.mem_cons_self v vs)
    simp only [List.filterMap_cons, List.map_cons]
    rw [show Val.toQ (.num q) = some q from rfl]
    simp only [Option.getD_some]
    rw [ih fun v hv => h v (List.mem_cons.mpr (Or.inr hv))]

/-- The rows of region `r.region` with date at or before `r.date`, in
frame order — the set of rows the claim says a trailing window may draw
from. -/
def regionPastRows (F : Frame) (r : Row) : List Row :=
  F.rows.filter fun r' =>
    getV r' "region" == getV r "region" &&
    (getV r' "date").dle (getV r "date")

/-- The rational carried by a numeric cell (`0` placeholder otherwise;
the claims apply it only under a numeric-schema hypothesis). -/
def cellQ (r : Row) (c : String) : ℚ := ((getV r c).toQ).getD 0

theorem windowMean_all_num (lst : List Row) (c : String)
    (h : ∀ r ∈ lst, ∃ q, getV r c = .num q) (hne : lst ≠ []) :
    windowMean (lst.map fun r => getV r c) =
      .num (qMean (lst.map fun r => cellQ r c)) := by
  unfold windowMean
  have hfm : (lst.map fun r => getV r c).filterMap Val.toQ =
      lst.map fun r => cellQ r c := by
    rw [filterMap_toQ_all _ (by
      intro v hv
      obtain ⟨r, hr, rfl⟩ := List.mem_map.mp hv
      exact h r hr)]
    rw [List.map_map]
    rfl
  rw [hfm]
  rw [if_neg (by
    simp only [List.isEmpty_iff, List.map_eq_nil_iff]
    exact hne)]

/-- `maVal` on the sorted frame, in the claim's form: the mean over the
last at most `w` same-region rows with date at or before row `i`'s
date. -/
theorem maVal_spec (s : List Row) (hsort : List.Sorted rowSortLe s)
    (hschema : ∀ r ∈ s, MergedSchema r)
    (hnd : (s.map fun r => (getV r "region", getV r "date")).Nodup)
    (i : ℕ) (hi : i < s.length) (c : String)
    (hcnum : ∀ r ∈ s, ∃ q, getV r c = .num q) (w : ℕ) (hw : 0 < w) :
    maVal s i c w =
      .num (qMean ((lastN w (s.filter fun r =>
        getV r "region" == getV (s.getD i []) "region" &&
        (getV r "date").dle (getV (s.getD i []) "date"))).map
        fun r => cellQ r c)) := by
  have hgetD : s.getD i [] = s[i] := List.getD_eq_getElem s [] hi
  obtain ⟨⟨ai, hai⟩, -, -, -⟩ := hschema s[i] (List.getElem_mem hi)
  have hPF := prefix_filter_eq_le_filter s hsort hschema hnd i hi
  simp only [maVal, hgetD]
  rw [if_neg (by rw [hai]; simp [Val.isNan])]
  rw [hgetD] at hPF
  rw [← hPF]
  have hmem_i : s[i] ∈ (s.take (i + 1)).filter fun r =>
      getV r "region" == getV s[i] "region" := by
    rw [List.mem_filter]
    constructor
    · rw [List.mem_iff_getElem]
      exact ⟨i, by simp [List.length_take]; omega, List.getElem_take _⟩
    · simp
  set lst := (s.take (i + 1)).filter fun r =>
    getV r "region" == getV s[i] "region" with hlst
  rw [lastN_map]
  apply windowMean_all_num
  · intro r hr
    apply hcnum
    have h1 : r ∈ s.take (i + 1) := List.mem_of_mem_filter (lastN_subset w lst hr)
    exact List.take_subset _ _ h1
  · apply lastN_ne_nil w hw
    intro hempty
    rw [hempty] at hmem_i
    exact (List.not_mem_nil _) hmem_i

theorem ef0_sorted (df : Frame) : List.Sorted rowSortLe (ef0 df).rows :=
  List.sorted_insertionSort rowSortLe df.rows

theorem ef0_perm (df : Frame) : (ef0 df).rows.Perm df.rows :=
  List.perm_insertionSort rowSortLe df.rows

/-- Bridge: the rolling cell over the sorted frame equals the claim's
trailing mean over the final frame's same-region rows. -/
theorem maVal_claim_form (df : Frame)
    (hschema : ∀ r ∈ df.rows, MergedSchema r)
    (hnd : (df.rows.map fun r => (getV r "region", getV r "date")).Nodup)
    (i : ℕ) (hi : i < df.rows.length) (c : String) (hcmem : c ∈ baseCols)
    (hcnum : ∀ r ∈ df.rows, ∃ q, getV r c = .num q) (w : ℕ) (hw : 0 < w) :
    maVal (ef0 df).rows i c w =
      .num (qMean ((lastN w (regionPastRows (engineerFeatures df)
        ((engineerFeatures df).rows.getD i []))).map fun r => cellQ r c)) := by
  have hperm := ef0_perm df
  have hs_schema : ∀ r ∈ (ef0 df).rows, MergedSchema r :=
    fun r hr => hschema r (hperm.subset hr)
  have hs_nd : ((ef0 df).rows.map fun r =>
      (getV r "region", getV r "date")).Nodup :=
    ((hperm.map _).nodup_iff).mpr hnd
  have hs_num : ∀ r ∈ (ef0 df).rows, ∃ q, getV r c = .num q :=
    fun r hr => hcnum r (hperm.subset hr)
  have hi0 : i < (ef0 df).rows.length := by
    rw [show (ef0 df).rows.length = df.rows.length from sortValues_rows_length df]
    exact hi
  have hreg : getV ((engineerFeatures df).rows.getD i []) "region" =
      getV ((ef0 df).rows.getD i []) "region" :=
    getV_final_base df i _ (by decide)
  have hdate : getV ((engineerFeatures df).rows.getD i []) "date" =
      getV ((ef0 df).rows.getD i []) "date" :=
    getV_final_base df i _ (by decide)
  have hfm : (regionPastRows (engineerFeatures df)
      ((engineerFeatures df).rows.getD i [])).map (fun r => cellQ r c) =
      ((ef0 df).rows.filter fun r' =>
        getV r' "region" == getV ((ef0 df).rows.getD i []) "region" &&
        (getV r' "date").dle (getV ((ef0 df).rows.getD i []) "date")).map
        fun r => cellQ r c := by
    unfold regionPastRows
    rw [hreg, hdate]
    exact forall₂_agree_filter_map (agree_final df) _ _
      (fun a b ha => by rw [ha "region" (by decide), ha "date" (by decide)])
      (fun a b ha => by unfold cellQ; rw [ha c hcmem])
  rw [maVal_spec (ef0 df).rows (ef0_sorted df) hs_schema hs_nd i hi0 c hs_num w hw]
  rw [← lastN_map, ← lastN_map, ← hfm]

/-- C1: for every merged input table (with the merged schema and
distinct `(region, date)` keys), every window `w ∈ {7, 30}` and every
output row, the rolling-mean cells of load and of mean temperature
computed by the Feature Engine equal the mean over only the rows of
that row's region with date at or before that row's date — the last at
most `w` such rows, fewer near the start of the region's series — so
rows of other regions never contribute. -/
theorem rolling_means_trail_own_region (df : Frame)
    (hschema : ∀ r ∈ df.rows, MergedSchema r)
    (hnd : (df.rows.map fun r => (getV r "region", getV r "date")).Nodup)
    (i : ℕ) (hi : i < (engineerFeatures df).rows.length) :
    getV ((engineerFeatures df).rows.getD i []) "load_ma_7d" =
      .num (qMean ((lastN 7 (regionPastRows (engineerFeatures df)
        ((engineerFeatures df).rows.getD i []))).map
        fun r => cellQ r "val_cargaenergiamwmed")) ∧
    getV ((engineerFeatures df).rows.getD i []) "temp_ma_7d" =
      .num (qMean ((lastN 7 (regionPastRows (engineerFeatures df)
        ((engineerFeatures df).rows.getD i []))).map
        fun r => cellQ r "temp_mean")) ∧
    getV ((engineerFeatures df).rows.getD i []) "load_ma_30d" =
      .num (qMean ((lastN 30 (regionPastRows (engineerFeatures df)
        ((engineerFeatures df).rows.getD i []))).map
        fun r => cellQ r "val_cargaenergiamwmed")) ∧
    getV ((engineerFeatures df).rows.getD i []) "temp_ma_30d" =
      .num (qMean ((lastN 30 (regionPastRows (engineerFeatures df)
        ((engineerFeatures df).rows.getD i []))).map
        fun r => cellQ r "temp_mean")) := by
  rw [engineerFeatures_rows_length] at hi
  have hload : ∀ r ∈ df.rows, ∃ q, getV r "val_cargaenergiamwmed" = .num q :=
    fun r hr => (hschema r hr).2.2.1
  have htemp : ∀ r ∈ df.rows, ∃ q, getV r "temp_mean" = .num q :=
    fun r hr => (hschema r hr).2.2.2
  refine ⟨?_, ?_, ?_, ?_⟩
  · rw [final_ma7 df i hi]
    exact maVal_claim_form df hschema hnd i hi _ (by decide) hload 7 (by omega)
  · rw [final_tma7 df i hi]
    exact maVal_claim_form df hschema hnd i hi _ (by decide) htemp 7 (by omega)
  · rw [final_ma30 df i hi]
    exact maVal_claim_form df hschema hnd i hi _ (by decide) hload 30 (by omega)
  · rw [final_tma30 df i hi]
    exact maVal_claim_form df hschema hnd i hi _ (by decide) htemp 30 (by omega)

/-- Witness for C1 on the concrete two-region frame, at output row 4
(the third `Sul` row). -/
theorem rolling_means_trail_own_region_witness :
    getV ((engineerFeatures exMergedA).rows.getD 4 []) "load_ma_7d" =
      .num (qMean ((lastN 7 (regionPastRows (engineerFeatures exMergedA)
        ((engineerFeatures exMergedA).rows.getD 4 []))).map
        fun r => cellQ r "val_cargaenergiamwmed")) ∧
    getV ((engineerFeatures exMergedA).rows.getD 4 []) "temp_ma_7d" =
      .num (qMean ((lastN 7 (regionPastRows (engineerFeatures exMergedA)
        ((engineerFeatures exMergedA).rows.getD 4 []))).map
        fun r => cellQ r "temp_mean")) ∧
    getV ((engineerFeatures exMergedA).rows.getD 4 []) "load_ma_30d" =
      .num (qMean ((lastN 30 (regionPastRows (engineerFeatures exMergedA)
        ((engineerFeatures exMergedA).rows.getD 4 []))).map
        fun r => cellQ r "val_cargaenergiamwmed")) ∧
    getV ((engineerFeatures exMergedA).rows.getD 4 []) "temp_ma_30d" =
      .num (qMean ((lastN 30 (regionPastRows (engineerFeatures exMergedA)
        ((engineerFeatures exMergedA).rows.getD 4 []))).map
        fun r => cellQ r "temp_mean")) :=
  rolling_means_trail_own_region exMergedA
    (by
      intro r hr
      fin_cases hr <;> exact ⟨⟨_, rfl⟩, ⟨_, rfl⟩, ⟨_, rfl⟩, ⟨_, rfl⟩⟩)
    (by decide) 4 (by rw [engineerFeatures_rows_length]; decide)

theorem sampleVar_nonneg (l : List ℚ) : 0 ≤ sampleVar l := by
  unfold sampleVar
  rcases l with _ | ⟨a, l⟩
  · simp
  · apply div_nonneg
    · apply List.sum_nonneg
      intro x hx
      obtain ⟨y, -, rfl⟩ := List.mem_map.mp hx
      positivity
    · simp only [List.length_cons]
      push_cast
      linarith

/-- The exact real meaning of the thresholded symbolic Z-score:
`5/2 < |x - m| / sqrt v` iff `0 < v` and `25 v < 4 (x - m)²`
(for `v ≥ 0`; at `v = 0` the real quotient is `0/0 = 0` in Lean's
convention, matching pandas' `NaN`-compares-`False`). -/
theorem abs_sub_div_sqrt_gt_iff (x m v : ℚ) (hv : 0 ≤ v) :
    ((5 / 2 : ℝ) < |(x : ℝ) - (m : ℝ)| / Real.sqrt (v : ℝ)) ↔
      (0 < v ∧ 25 * v < 4 * (x - m) ^ 2) := by
  rcases eq_or_lt_of_le hv with hv0 | hvpos
  · rw [← hv0]
    push_cast
    rw [Real.sqrt_zero, div_zero]
    constructor
    · intro h
      exact absurd h (by norm_num)
    · rintro ⟨h, -⟩
      exact absurd h (by norm_num)
  · have hvR : (0 : ℝ) < (v : ℝ) := by exact_mod_cast hvpos
    have hs : 0 < Real.sqrt (v : ℝ) := Real.sqrt_pos.mpr hvR
    rw [lt_div_iff₀ hs]
    constructor
    · intro h
      refine ⟨hvpos, ?_⟩
      have h2 : ((5 : ℝ) / 2 * Real.sqrt (v : ℝ)) ^ 2 <
          |(x : ℝ) - (m : ℝ)| ^ 2 :=
        pow_lt_pow_left₀ h (by positivity) (by norm_num)
      rw [mul_pow, sq_abs, Real.sq_sqrt hvR.le] at h2
      have hR : (25 : ℝ) * (v : ℝ) < 4 * ((x : ℝ) - (m : ℝ)) ^ 2 := by
        nlinarith [h2]
      exact_mod_cast hR
    · rintro ⟨-, hineq⟩
      have hR : (25 : ℝ) * (v : ℝ) < 4 * ((x : ℝ) - (m : ℝ)) ^ 2 := by
        exact_mod_cast hineq
      apply lt_of_pow_lt_pow_left₀ 2 (abs_nonneg _)
      rw [mul_pow, sq_abs, Real.sq_sqrt hvR.le]
      nlinarith [hR]

/-- The full load series of the rows with region key `k`, as
rationals. -/
def regionLoadsF (F : Frame) (k : Val) : List ℚ :=
  (F.rows.filter fun r => getV r "region" == k).map
    fun r => cellQ r "val_cargaenergiamwmed"

theorem zscVal_eval (rs : List Row) (r : Row) (a : String) (x : ℚ)
    (ha : getV r "region" = .str a)
    (hx : getV r "val_cargaenergiamwmed" = .num x) :
    zscVal rs r =
      if sampleVar (regionNums rs (.str a)) = 0 then Val.nan
      else .zsc x (qMean (regionNums rs (.str a)))
        (sampleVar (regionNums rs (.str a))) := by
  simp only [zscVal, ha, hx, Val.isNan, Val.toQ]
  rfl

/-- The claim's region series, read off the final frame, equals the
series the Z-score transform actually used. -/
theorem regionLoadsF_eq_regionNums (df : Frame) (a : String)
    (hschema : ∀ r ∈ df.rows, (∃ b, getV r "region" = .str b) ∧
      (∃ q, getV r "val_cargaenergiamwmed" = .num q)) :
    regionLoadsF (engineerFeatures df) (.str a) =
      regionNums (ef0 df).rows (.str a) := by
  unfold regionLoadsF regionNums
  rw [forall₂_agree_filter_map (agree_final df) _ _
    (fun r r' hr => by rw [hr "region" (by decide)])
    (fun r r' hr => by unfold cellQ; rw [hr "val_cargaenergiamwmed" (by decide)])]
  rw [filterMap_toQ_all _ (by
    intro v hv
    obtain ⟨r, hr, rfl⟩ := List.mem_map.mp hv
    exact ((hschema r ((ef0_perm df).subset (List.mem_of_mem_filter hr))).2))]
  rw [List.map_map]
  rfl

/-- C2: the Feature Engine sets `is_anomaly` to 1 exactly when
`|load - mu_r| / sigma_r > 2.5`, where `mu_r` and `sigma_r` are the
mean and (sample) standard deviation of load over the row's region's
full observed series — and to 0 otherwise (the flag is always exactly 0
or 1).  When `sigma_r` is zero or undefined the real quotient is 0 (in
Lean's division convention), the threshold test fails, and the flag is
0, matching pandas' `NaN > 2.5 = False`. -/
theorem is_anomaly_iff_region_zscore (df : Frame)
    (hschema : ∀ r ∈ df.rows, (∃ a, getV r "region" = .str a) ∧
      (∃ q, getV r "val_cargaenergiamwmed" = .num q)) :
    ∀ row ∈ (engineerFeatures df).rows,
      (getV row "is_anomaly" = .num 1 ↔
        (5 / 2 : ℝ) <
          |(cellQ row "val_cargaenergiamwmed" : ℝ) -
            (qMean (regionLoadsF (engineerFeatures df) (getV row "region")) : ℝ)| /
            Real.sqrt (sampleVar (regionLoadsF (engineerFeatures df)
              (getV row "region")) : ℝ)) ∧
      (getV row "is_anomaly" = .num 0 ∨ getV row "is_anomaly" = .num 1) := by
  intro row hrow
  refine ⟨?_, anomaly_col_binary df row hrow⟩
  obtain ⟨i, hi, hrowi⟩ := List.mem_iff_getElem.mp hrow
  have hD : (engineerFeatures df).rows.getD i [] = row := by
    rw [List.getD_eq_getElem _ _ hi, hrowi]
  have hiN : i < df.rows.length := by
    rw [← engineerFeatures_rows_length df]
    exact hi
  have hi0 : i < (ef0 df).rows.length := by
    rw [show (ef0 df).rows.length = df.rows.length from sortValues_rows_length df]
    exact hiN
  have hr0mem : (ef0 df).rows.getD i [] ∈ df.rows :=
    (ef0_perm df).subset (getD_mem_of_lt hi0)
  obtain ⟨⟨a, ha⟩, ⟨x, hx⟩⟩ := hschema _ hr0mem
  have hreg : getV row "region" = .str a := by
    rw [← hD, getV_final_base df i _ (by decide), ha]
  have hload : cellQ row "val_cargaenergiamwmed" = x := by
    unfold cellQ
    rw [← hD, getV_final_base df i _ (by decide), hx]
    rfl
  have hflag : getV row "is_anomaly" =
      anomalyVal (zscVal (ef0 df).rows ((ef0 df).rows.getD i [])) := by
    rw [← hD]
    exact final_anomaly df i hiN
  rw [hflag, hreg, hload, regionLoadsF_eq_regionNums df a hschema,
    zscVal_eval _ _ a x ha hx]
  set nums := regionNums (ef0 df).rows (.str a) with hnums
  by_cases hv0 : sampleVar nums = 0
  · rw [if_pos hv0, hv0]
    constructor
    · intro habs
      rw [show anomalyVal Val.nan = Val.num 0 from rfl, Val.num.injEq] at habs
      norm_num at habs
    · intro hreal
      push_cast at hreal
      rw [Real.sqrt_zero, div_zero] at hreal
      exact absurd hreal (by norm_num)
  · have hvpos : 0 < sampleVar nums :=
      lt_of_le_of_ne (sampleVar_nonneg nums) (Ne.symm hv0)
    rw [if_neg hv0]
    rw [show anomalyVal (.zsc x (qMean nums) (sampleVar nums)) =
        (if 25 * sampleVar nums < 4 * (x - qMean nums) ^ 2
         then Val.num 1 else Val.num 0) from rfl]
    rw [abs_sub_div_sqrt_gt_iff x (qMean nums) (sampleVar nums)
      (sampleVar_nonneg nums)]
    constructor
    · intro h1
      by_cases hc : 25 * sampleVar nums < 4 * (x - qMean nums) ^ 2
      · exact ⟨hvpos, hc⟩
      · rw [if_neg hc, Val.num.injEq] at h1
        norm_num at h1
    · rintro ⟨-, hc⟩
      rw [if_pos hc]

/-- Witness for C2 at the first output row of the concrete two-region
frame. -/
theorem is_anomaly_iff_region_zscore_witness :
    (getV ((engineerFeatures exMergedA).rows.getD 0 []) "is_anomaly" = .num 1 ↔
      (5 / 2 : ℝ) <
        |(cellQ ((engineerFeatures exMergedA).rows.getD 0 [])
            "val_cargaenergiamwmed" : ℝ) -
          (qMean (regionLoadsF (engineerFeatures exMergedA)
            (getV ((engineerFeatures exMergedA).rows.getD 0 []) "region")) : ℝ)| /
          Real.sqrt (sampleVar (regionLoadsF (engineerFeatures exMergedA)
            (getV ((engineerFeatures exMergedA).rows.getD 0 []) "region")) : ℝ)) ∧
    (getV ((engineerFeatures exMergedA).rows.getD 0 []) "is_anomaly" = .num 0 ∨
      getV ((engineerFeatures exMergedA).rows.getD 0 []) "is_anomaly" = .num 1) :=
  is_anomaly_iff_region_zscore exMergedA
    (by
      intro r hr
      fin_cases hr <;> exact ⟨⟨_, rfl⟩, ⟨_, rfl⟩⟩)
    _ (getD_mem_of_lt (by rw [engineerFeatures_rows_length]; decide))

end CurrentFlow
